import Mathlib

/-!
Shallow embedding of the multi-provider synchronization engine of the
online-video-history-server repository (Node.js sources under src/).

Each provider's control flow is translated into an executable Lean function:
the scripted remote transport is a list of responses consumed in order, the
SQLite `history` table is a list of rows, and wall-clock time is an explicit
parameter.  Machine integers are modelled as `Int`/`Nat` (JavaScript numbers
in this code stay well within exact integer range).
-/

/-- JavaScript string truthiness: `""` (and absence) is falsy, so
`a || b` on strings keeps `a` only when it is present and non-empty. -/
def jsStrOr (a : Option String) (b : String) : String :=
  match a with
  | some s => if s = "" then b else s
  | none => b

/-- `some s` with `s ≠ ""`, otherwise `none` (JS truthiness filter on a
possibly-absent string). -/
def jsTruthyStr (a : Option String) : Option String :=
  match a with
  | some s => if s = "" then none else some s
  | none => none

namespace Store

/-- One row of the `history` table (composite key `(id, platform)`).
The id type is a parameter: Bilibili ids (`history.oid`) are numbers,
the other platforms use string ids.  Field `viewTime` is the `view_time`
column; `timestamp` is the `timestamp` column (Unix milliseconds). -/
structure HRow (α : Type) where
  id : α
  platform : String
  business : String
  bvid : String
  cid : Nat
  title : String
  tag_name : String
  cover : String
  viewTime : Int
  uri : String
  author_name : String
  author_mid : Nat
  timestamp : Int
deriving DecidableEq, Repr

/-- `SELECT id, view_time FROM history WHERE id = ? AND platform = ?`
(first matching row, as `better-sqlite3`'s `get`). -/
def getById {α : Type} [DecidableEq α] :
    List (HRow α) → α → String → Option (HRow α)
  | [], _, _ => none
  | r :: rs, id, platform =>
    if r.id = id ∧ r.platform = platform then some r
    else getById rs id platform

/-- Plain `INSERT` (the Bilibili statement): append the row. -/
def insertRow {α : Type} (db : List (HRow α)) (r : HRow α) : List (HRow α) :=
  db ++ [r]

/-- `INSERT OR IGNORE`: append only when no row with the same
`(id, platform)` key exists. -/
def insertOrIgnore {α : Type} [DecidableEq α] (db : List (HRow α))
    (r : HRow α) : List (HRow α) :=
  match getById db r.id r.platform with
  | some _ => db
  | none => db ++ [r]

/-- `UPDATE history SET view_time = ?, timestamp = ? WHERE id = ? AND platform = ?`. -/
def updateViewTime {α : Type} [DecidableEq α] (db : List (HRow α)) (id : α)
    (platform : String) (viewTime : Int) (timestamp : Int) : List (HRow α) :=
  db.map (fun r =>
    if r.id = id ∧ r.platform = platform then
      { r with viewTime := viewTime, timestamp := timestamp }
    else r)

/-- Ids present in the store for a fixed platform. -/
def ids {α : Type} (db : List (HRow α)) (platform : String) : List α :=
  (db.filter (fun r => r.platform = platform)).map (·.id)

end Store

/-! ## Generic request-level retry (`fetchWithRetry`)

Both `src/providers/bilibili.js` and `src/providers/xiaoyuzhou.js` define the
same helper: try `fetch`; when it *throws* (raw network failure) sleep a fixed
`retryDelay` and recurse with `retries - 1`; a resolved response — whatever
its HTTP status — is returned as-is.  The transport is modelled as a function
from attempt index to the attempt's outcome. -/

/-- Outcome of one underlying `fetch` call: the promise either rejects
(thrown network error) or resolves to a response with an `ok` flag and a
status code. -/
inductive FetchAttempt where
  | throwErr (msg : String)
  | respond (ok : Bool) (status : Nat)
deriving DecidableEq, Repr

deriving instance DecidableEq for Except

/-- Result of `fetchWithRetry`: the surfaced value (response or rethrown
error), the total number of `fetch` attempts performed, and the list of
sleeps (ms) taken between attempts. -/
structure RetryOut where
  result : Except String (Bool × Nat)
  attempts : Nat
  sleeps : List Nat
deriving DecidableEq, Repr

/-- `fetchWithRetry(url, options, retries)`: `att` scripts the transport,
`i` is the index of the next attempt, `retries` the remaining retry budget
(`REQUEST_CONFIG.maxRetries = API_CONFIG.maxRetries = 3` initially). -/
def fetchWithRetry (att : Nat → FetchAttempt) (retryDelay : Nat) :
    Nat → Nat → RetryOut
  | i, 0 =>
    match att i with
    | .respond ok status => ⟨.ok (ok, status), 1, []⟩
    | .throwErr m => ⟨.error m, 1, []⟩
  | i, n + 1 =>
    match att i with
    | .respond ok status => ⟨.ok (ok, status), 1, []⟩
    | .throwErr _ =>
      let o := fetchWithRetry att retryDelay (i + 1) n
      ⟨o.result, o.attempts + 1, retryDelay :: o.sleeps⟩

/-- `maxRetries` from both providers' request configs. -/
def maxRetries : Nat := 3

/-- `retryDelay` (ms) from both providers' request configs. -/
def retryDelayMs : Nat := 2000

namespace Bilibili

/-- `AUTH_ERROR_CODES` from `src/providers/bilibili.js`. -/
def AUTH_ERROR_CODES : List Int := [-101, -6]

/-- `AUTH_ERROR_KEYWORDS` from `src/providers/bilibili.js`. -/
def AUTH_ERROR_KEYWORDS : List String := ["未登录", "请先登录", "登录"]

/-- `String.prototype.includes`: `needle` occurs as a contiguous substring
of `hay`. -/
def strIncludes (hay needle : String) : Bool :=
  (List.range (hay.toList.length + 1)).any
    (fun i => needle.toList.isPrefixOf (hay.toList.drop i))

/-- `BilibiliProvider.isAuthError(data)`: a fixed error-code set, else —
when `data.message` is truthy — keyword containment. -/
def isAuthError (code : Int) (message : Option String) : Bool :=
  if code ∈ AUTH_ERROR_CODES then true
  else
    match message with
    | some m => if m = "" then false else
        AUTH_ERROR_KEYWORDS.any (fun k => strIncludes m k)
    | none => false

/-- Raw item of one page of
`api.bilibili.com/x/web-interface/history/cursor` (the fields the provider
reads). -/
structure Raw where
  oid : Nat
  business : String
  bvid : String
  cid : Nat
  title : String
  tag_name : String
  cover : Option String
  covers : Option (List String)
  view_at : Int
  uri : Option String
  author_name : Option String
  author_mid : Option Nat
deriving DecidableEq, Repr

/-- `BilibiliProvider.normalizeItem(rawItem)` at wall-clock `nowMs`. -/
def normalizeItem (nowMs : Int) (rawItem : Raw) : Store.HRow Nat :=
  { id := rawItem.oid
    platform := "bilibili"
    business := rawItem.business
    bvid := rawItem.bvid
    cid := rawItem.cid
    title := rawItem.title
    tag_name := rawItem.tag_name
    cover := (jsTruthyStr rawItem.cover <|>
      (rawItem.covers.bind List.head?)).getD ""
    viewTime := rawItem.view_at
    uri := jsStrOr rawItem.uri ""
    author_name := jsStrOr rawItem.author_name ""
    author_mid := rawItem.author_mid.getD 0
    timestamp := nowMs }

/-- One JSON response of the history-cursor endpoint, as consumed by
`sync()`: the HTTP `ok` flag, the API `code`/`message`, and `data.list`.
The opaque cursor pair only feeds the next request URL and does not affect
control flow, so the scripted transport hands pages out in order. -/
structure Resp where
  ok : Bool
  code : Int
  message : Option String
  list : List Raw
deriving DecidableEq, Repr

/-- Failure modes of `BilibiliProvider.sync()` (each a distinct `throw` in
the source). `authError` is the throw taken for an auth-classified response
that cannot be (further) retried. -/
inductive SyncErr where
  | httpNotOk
  | authError (msg : String)
  | apiError (msg : String)
  | transportExhausted
deriving DecidableEq, Repr

/-- Mutable state of one `sync()` run: the store, the cross-run
`processedIds` set, the counters, and instrumentation (number of forced
cookie refreshes, number of `sync` invocations, pages fetched). -/
structure St where
  db : List (Store.HRow Nat)
  processed : List Nat
  newCount : Nat
  updateCount : Nat
  noUpdateCount : Nat
  refreshes : Nat
  syncCalls : Nat
  pagesFetched : Nat
deriving DecidableEq, Repr

/-- Result of a run: outcome, final state, unconsumed transport script. -/
structure Out where
  outcome : Except SyncErr (Nat × Nat)
  st : St
  remaining : List Resp
deriving DecidableEq, Repr

/-- The in-page collection loop over `data.data.list`: skip ids already in
`processedIds`, record the rest, and normalize them in order. -/
def collectItems (nowMs : Int) :
    List Raw → List Nat → List Nat × List (Store.HRow Nat)
  | [], processed => (processed, [])
  | rawItem :: rs, processed =>
    if rawItem.oid ∈ processed then collectItems nowMs rs processed
    else
      let (p', items) := collectItems nowMs rs (processed ++ [rawItem.oid])
      (p', normalizeItem nowMs rawItem :: items)

/-- The `batchInsert` transaction body: for each item, insert when the key
is absent, else update `view_time`/`timestamp` when the stored `view_time`
differs. Returns the store and the bumped counters. -/
def batchInsert :
    List (Store.HRow Nat) → List (Store.HRow Nat) × Nat × Nat →
    List (Store.HRow Nat) × Nat × Nat
  | [], acc => acc
  | item :: items, (db, n, u) =>
    match Store.getById db item.id "bilibili" with
    | none => batchInsert items (Store.insertRow db item, n + 1, u)
    | some existing =>
      if existing.viewTime ≠ item.viewTime then
        batchInsert items
          (Store.updateViewTime db item.id "bilibili" item.viewTime
            item.timestamp, n, u + 1)
      else batchInsert items (db, n, u)

/-- The paging loop of `BilibiliProvider.sync(isRetry)`, one transport
response per iteration.  An auth-classified API error on a non-retry call
with CookieCloud available forces a cookie refresh and restarts the whole
sync (fresh counters and `processedIds`, same store) with the retry flag
set; any other non-zero code, a non-`ok` response, or an exhausted
transport throws. -/
def syncGo (nowMs : Int) (canRefresh : Bool) :
    List Resp → Bool → St → Out
  | [], _, st => ⟨.error .transportExhausted, st, []⟩
  | r :: rest, isRetry, st =>
    let st := { st with pagesFetched := st.pagesFetched + 1 }
    if r.ok = false then ⟨.error .httpNotOk, st, rest⟩
    else if r.code ≠ 0 then
      if isAuthError r.code r.message then
        if isRetry ∨ ¬canRefresh then
          ⟨.error (.authError (jsStrOr r.message "Bilibili: 获取历史记录失败")),
            st, rest⟩
        else
          syncGo nowMs canRefresh rest true
            { st with
              processed := []
              newCount := 0
              updateCount := 0
              noUpdateCount := 0
              refreshes := st.refreshes + 1
              syncCalls := st.syncCalls + 1 }
      else
        ⟨.error (.apiError (jsStrOr r.message "Bilibili: 获取历史记录失败")),
          st, rest⟩
    else
      if r.list = [] then ⟨.ok (st.newCount, st.updateCount), st, rest⟩
      else
        let (p', items) := collectItems nowMs r.list st.processed
        let (db', n', u') := batchInsert items (st.db, st.newCount, st.updateCount)
        let hasNewOrUpdated := n' > st.newCount ∨ u' > st.updateCount
        if hasNewOrUpdated then
          syncGo nowMs canRefresh rest isRetry
            { st with
              db := db'
              processed := p'
              newCount := n'
              updateCount := u'
              noUpdateCount := 0 }
        else
          let no' := st.noUpdateCount + items.length
          if no' ≥ 30 then
            ⟨.ok (n', u'),
              { st with
                db := db'
                processed := p'
                newCount := n'
                updateCount := u'
                noUpdateCount := no' }, rest⟩
          else
            syncGo nowMs canRefresh rest isRetry
              { st with
                db := db'
                processed := p'
                newCount := n'
                updateCount := u'
                noUpdateCount := no' }

/-- `BilibiliProvider.sync()` from the top: retry flag clear, counters
zeroed, one sync invocation on the books. -/
def sync (nowMs : Int) (canRefresh : Bool) (resps : List Resp)
    (db : List (Store.HRow Nat)) : Out :=
  syncGo nowMs canRefresh resps false
    ⟨db, [], 0, 0, 0, 0, 1, 0⟩

end Bilibili

namespace Xiaoyuzhou

/-- JS `a || b` on two possibly-absent strings (empty string is falsy). -/
def jsOrOption (a b : Option String) : Option String :=
  match jsTruthyStr a with
  | some s => some s
  | none => b

/-- The episode-level fields of one raw item of
`/v1/episode-played/list-history` that the provider reads
(`episode = rawItem.episode || rawItem`).  `lastPlayedAt` stands for the
playback timestamp the API reports alongside each episode; the provider
never reads it. -/
structure Raw where
  eid : Option String
  pid : Option String
  duration : Option Nat
  title : Option String
  podcastTitle : Option String
  podcastAuthor : Option String
  picUrl : Option String
  podcastPicUrl : Option String
  lastPlayedAt : Int
deriving DecidableEq, Repr

/-- `XiaoyuzhouProvider.normalizeItem(rawItem, viewTime)` at wall-clock
`nowMs`. -/
def normalizeItem (nowMs : Int) (viewTime : Int) (raw : Raw) :
    Store.HRow String :=
  { id := jsStrOr raw.eid ""
    platform := "xiaoyuzhou"
    business := "podcast"
    bvid := jsStrOr raw.pid ""
    cid := raw.duration.getD 0
    title := jsStrOr raw.title ""
    tag_name := jsStrOr raw.podcastTitle ""
    cover := (jsTruthyStr raw.picUrl <|> jsTruthyStr raw.podcastPicUrl).getD ""
    viewTime := viewTime
    uri := "https://www.xiaoyuzhoufm.com/episode/" ++ jsStrOr raw.eid ""
    author_name := jsStrOr raw.podcastAuthor ""
    author_mid := 0
    timestamp := nowMs }

/-- One HTTP response of the history endpoint as `_fetchHistory` sees it:
the `ok` flag and status, and — for a JSON body — the `data` array
(absent ⇒ malformed) and the `loadMoreKey` cursor. -/
structure Resp where
  ok : Bool
  status : Nat
  data : Option (List Raw)
  loadMoreKey : Option String
deriving DecidableEq, Repr

/-- The distinct `throw` sites of `_fetchHistory` (and the
transport-exhausted case of the scripted model). -/
inductive FetchErr where
  | refreshFailed
  | requestFailed (status : Nat)
  | malformedResponse
  | transportExhausted
deriving DecidableEq, Repr

/-- Result of one `_fetchHistory(loadMoreKey, isRetry)` call: the page (or
thrown error), how many times `_refreshTokens` was invoked, how many HTTP
requests were issued, and the unconsumed transport script. -/
structure FetchOut where
  result : Except FetchErr (List Raw × Option String)
  refreshCalls : Nat
  attempts : Nat
  remaining : List Resp
deriving Repr

/-- `XiaoyuzhouProvider._fetchHistory`: a non-`ok` response with status
401/403 on a non-retry call invokes `_refreshTokens` (outcome scripted by
`refreshOk`) and, when the refresh succeeds, re-invokes the request once
with the retry flag set; any other failure — including an auth status on
the retried call — throws. -/
def fetchHistory (refreshOk : Bool) : List Resp → Bool → FetchOut
  | [], _ => ⟨.error .transportExhausted, 0, 0, []⟩
  | r :: rest, isRetry =>
    if r.ok = false then
      if (r.status = 401 ∨ r.status = 403) ∧ ¬isRetry then
        if refreshOk then
          let o := fetchHistory refreshOk rest true
          ⟨o.result, o.refreshCalls + 1, o.attempts + 1, o.remaining⟩
        else ⟨.error .refreshFailed, 1, 1, rest⟩
      else ⟨.error (.requestFailed r.status), 0, 1, rest⟩
    else
      match r.data with
      | none => ⟨.error .malformedResponse, 0, 1, rest⟩
      | some d => ⟨.ok (d, jsTruthyStr r.loadMoreKey), 0, 1, rest⟩

theorem fetchHistory_remaining_retry (refreshOk : Bool) (rest : List Resp) :
    (fetchHistory refreshOk rest true).remaining.length ≤ rest.length := by
  cases rest with
  | nil => simp [fetchHistory]
  | cons r rest2 =>
    simp only [fetchHistory]
    split
    · rw [if_neg (by simp)]
      simp [Nat.le_succ]
    · cases r.data <;> simp [Nat.le_succ]

theorem fetchHistory_remaining_lt (refreshOk : Bool) (resps : List Resp)
    (isRetry : Bool) (hne : resps ≠ []) :
    (fetchHistory refreshOk resps isRetry).remaining.length < resps.length := by
  match resps with
  | [] => exact absurd rfl hne
  | r :: rest =>
    simp only [fetchHistory]
    split
    · split
      · split
        · exact Nat.lt_succ_of_le (by
            simpa using fetchHistory_remaining_retry refreshOk rest)
        · simp
      · simp
    · cases r.data <;> simp

/-- Per-run mutable state of `XiaoyuzhouProvider.sync()`. -/
structure St where
  db : List (Store.HRow String)
  newCount : Nat
  skippedCount : Nat
  firstEid : Option String
  fetches : Nat
deriving DecidableEq, Repr

/-- Contents of `xiaoyuzhou_sync_state.json` as written by
`_saveSyncState` (`lastSyncAt` is a formatting of `lastSyncTime`). -/
structure SyncState where
  lastSyncTime : Int
  lastEid : Option String
deriving DecidableEq, Repr

/-- Run result: outcome, final state, the persisted sync state (written
only on normal completion — a thrown error propagates before the save),
and the unconsumed transport script. -/
structure Out where
  outcome : Except FetchErr (Nat × Nat)
  st : St
  saved : Option SyncState
  remaining : List Resp
deriving Repr

/-- The per-page item loop of `sync()`: items lacking a (truthy) `eid` are
skipped, the first seen `eid` is remembered, an id already in the store
stops an incremental run (dropping the rest of the page) but is merely
counted and skipped on a first sync, and fresh items are normalized and
collected in order.  Lookups run against the store as it stood before the
page's batch insert. -/
def processItems (nowMs currentTime : Int) (isFirst : Bool)
    (db : List (Store.HRow String)) :
    List Raw → Option String → Nat → List (Store.HRow String) →
    List (Store.HRow String) × Nat × Option String × Bool
  | [], firstEid, skipped, acc => (acc, skipped, firstEid, false)
  | raw :: rs, firstEid, skipped, acc =>
    match jsTruthyStr raw.eid with
    | none => processItems nowMs currentTime isFirst db rs firstEid skipped acc
    | some e =>
      let firstEid := if firstEid = none then some e else firstEid
      match Store.getById db e "xiaoyuzhou" with
      | some _ =>
        if ¬isFirst then (acc, skipped, firstEid, true)
        else processItems nowMs currentTime isFirst db rs firstEid
          (skipped + 1) acc
      | none =>
        processItems nowMs currentTime isFirst db rs firstEid skipped
          (acc ++ [normalizeItem nowMs currentTime raw])

/-- The paging loop of `sync()`.  `pageCount` pages have completed so far;
the counter is incremented at the top of each iteration and, on a first
sync only, the run breaks once it exceeds `maxPages` — before issuing the
next request.  Every normal break persists the sync state with
`lastSyncTime := Date.now()` and `lastEid := firstEid || previous`. -/
def syncGo (nowMs : Int) (refreshOk : Bool) (isFirst : Bool)
    (maxPages : Nat) (prevLastEid : Option String) :
    Nat → List Resp → Nat → St → Out
  | 0, _, _, st => ⟨.error .transportExhausted, st, none, []⟩
  | fuel + 1, resps, pageCount, st =>
    if isFirst ∧ pageCount + 1 > maxPages then
      ⟨.ok (st.newCount, 0), st,
        some ⟨nowMs, jsOrOption st.firstEid prevLastEid⟩, resps⟩
    else
      match resps with
      | [] => ⟨.error .transportExhausted, st, none, []⟩
      | a :: l =>
        let fo := fetchHistory refreshOk (a :: l) false
        let st := { st with fetches := st.fetches + 1 }
        match fo.result with
        | .error e => ⟨.error e, st, none, fo.remaining⟩
        | .ok (data, nextKey) =>
          if data = [] then
            ⟨.ok (st.newCount, 0), st,
              some ⟨nowMs, jsOrOption st.firstEid prevLastEid⟩, fo.remaining⟩
          else
            let (newItems, skipped', firstEid', stop) :=
              processItems nowMs (Int.fdiv nowMs 1000) isFirst st.db data
                st.firstEid st.skippedCount []
            let db' := newItems.foldl Store.insertOrIgnore st.db
            let st' := { st with
              db := db'
              newCount := st.newCount + newItems.length
              skippedCount := skipped'
              firstEid := firstEid' }
            if stop then
              ⟨.ok (st'.newCount, 0), st',
                some ⟨nowMs, jsOrOption st'.firstEid prevLastEid⟩,
                fo.remaining⟩
            else if nextKey = none then
              ⟨.ok (st'.newCount, 0), st',
                some ⟨nowMs, jsOrOption st'.firstEid prevLastEid⟩,
                fo.remaining⟩
            else
              syncGo nowMs refreshOk isFirst maxPages prevLastEid fuel
                fo.remaining (pageCount + 1) st'

/-- `XiaoyuzhouProvider.sync()` after token initialization: `lastSyncTime`
is the persisted value (`0` signals first sync), the transport script and
store are explicit.  The structural fuel `resps.length + 1` cannot run out
before the scripted transport does (every loop iteration consumes at least
one response), so the fuel-exhausted branch coincides with the
transport-exhausted one. -/
def sync (nowMs : Int) (refreshOk : Bool) (maxPages : Nat)
    (lastSyncTime : Int) (prevLastEid : Option String)
    (resps : List Resp) (db : List (Store.HRow String)) : Out :=
  syncGo nowMs refreshOk (lastSyncTime = 0) maxPages prevLastEid
    (resps.length + 1) resps 0 ⟨db, 0, 0, none, 0⟩

/-- One-step unfolding of the paging loop at positive fuel. -/
theorem syncGo_succ (nowMs : Int) (refreshOk isFirst : Bool)
    (maxPages : Nat) (prevLastEid : Option String) (fuel : Nat)
    (resps : List Resp) (pageCount : Nat) (st : St) :
    syncGo nowMs refreshOk isFirst maxPages prevLastEid (fuel + 1) resps
        pageCount st =
      (if isFirst ∧ pageCount + 1 > maxPages then
        ⟨.ok (st.newCount, 0), st,
          some ⟨nowMs, jsOrOption st.firstEid prevLastEid⟩, resps⟩
      else
        match resps with
        | [] => ⟨.error .transportExhausted, st, none, []⟩
        | a :: l =>
          let fo := fetchHistory refreshOk (a :: l) false
          let st := { st with fetches := st.fetches + 1 }
          match fo.result with
          | .error e => ⟨.error e, st, none, fo.remaining⟩
          | .ok (data, nextKey) =>
            if data = [] then
              ⟨.ok (st.newCount, 0), st,
                some ⟨nowMs, jsOrOption st.firstEid prevLastEid⟩, fo.remaining⟩
            else
              let (newItems, skipped', firstEid', stop) :=
                processItems nowMs (Int.fdiv nowMs 1000) isFirst st.db data
                  st.firstEid st.skippedCount []
              let db' := newItems.foldl Store.insertOrIgnore st.db
              let st' := { st with
                db := db'
                newCount := st.newCount + newItems.length
                skippedCount := skipped'
                firstEid := firstEid' }
              if stop then
                ⟨.ok (st'.newCount, 0), st',
                  some ⟨nowMs, jsOrOption st'.firstEid prevLastEid⟩,
                  fo.remaining⟩
              else if nextKey = none then
                ⟨.ok (st'.newCount, 0), st',
                  some ⟨nowMs, jsOrOption st'.firstEid prevLastEid⟩,
                  fo.remaining⟩
              else
                syncGo nowMs refreshOk isFirst maxPages prevLastEid fuel
                  fo.remaining (pageCount + 1) st') := rfl

/-- `XiaoyuzhouProvider.deleteRemote(item)`: unimplemented — logs a notice
and resolves `false` for every input. -/
def deleteRemote (_item : Store.HRow String) : Except String Bool × List String :=
  (.ok false, ["[Xiaoyuzhou] 删除远程记录功能暂未实现"])

end Xiaoyuzhou

namespace YouTube

/-- One thumbnail object of a yt-dlp flat-playlist entry. -/
structure Thumb where
  width : Option Nat
  url : Option String
deriving DecidableEq, Repr

/-- One entry of the yt-dlp `--flat-playlist --dump-single-json` output
(the fields the provider reads). -/
structure Entry where
  id : Option String
  title : Option String
  url : Option String
  thumbnails : List Thumb
deriving DecidableEq, Repr

/-- The thumbnail pick of `YouTubeProvider.normalizeItem`: sort a copy of
`thumbnails` by width descending (missing width counts 0; JS `sort` is
stable) and take the first url, `''` when absent or empty. -/
def pickCover (thumbs : List Thumb) : String :=
  match thumbs with
  | [] => ""
  | _ =>
    let sorted := thumbs.mergeSort (fun a b => b.width.getD 0 ≤ a.width.getD 0)
    match sorted with
    | [] => ""
    | t :: _ => jsStrOr t.url ""

/-- `YouTubeProvider.normalizeItem(entry, viewTime)` at wall-clock
`nowMs`. -/
def normalizeItem (nowMs : Int) (viewTime : Int) (entry : Entry) :
    Store.HRow String :=
  { id := entry.id.getD ""
    platform := "youtube"
    business := "video"
    bvid := entry.id.getD ""
    cid := 0
    title := jsStrOr entry.title ""
    tag_name := ""
    cover := pickCover entry.thumbnails
    viewTime := viewTime
    uri := (jsTruthyStr entry.url).getD
      ("https://www.youtube.com/watch?v=" ++ entry.id.getD "")
    author_name := ""
    author_mid := 0
    timestamp := nowMs }

/-- The entry loop of `YouTubeProvider.sync()`: entries without a truthy
`id` are skipped; an existing id on an incremental run whose stored
`view_time >= lastSyncTime` breaks the loop (it was reached by the last
sync); an existing id with an older `view_time` is a rewatch and is merely
counted; fresh entries are collected in order. -/
def processEntries (nowMs currentTime lastSyncTime : Int) (isFirst : Bool)
    (db : List (Store.HRow String)) :
    List Entry → Nat → List (Store.HRow String) →
    List (Store.HRow String) × Nat
  | [], skipped, acc => (acc, skipped)
  | entry :: es, skipped, acc =>
    match jsTruthyStr entry.id with
    | none => processEntries nowMs currentTime lastSyncTime isFirst db es
        skipped acc
    | some e =>
      match Store.getById db e "youtube" with
      | some existing =>
        if ¬isFirst ∧ existing.viewTime ≥ lastSyncTime then (acc, skipped)
        else processEntries nowMs currentTime lastSyncTime isFirst db es
          (skipped + 1) acc
      | none =>
        processEntries nowMs currentTime lastSyncTime isFirst db es skipped
          (acc ++ [normalizeItem nowMs currentTime entry])

/-- Run result: outcome counts, final store, persisted sync state
(`lastSyncTime` seconds) when written, and the skipped count. -/
structure Out where
  outcome : Except String (Nat × Nat)
  db : List (Store.HRow String)
  saved : Option Int
  skipped : Nat
deriving Repr

/-- `YouTubeProvider.sync()` after the yt-dlp fetch: `entries` is the
parsed playlist (a failed fetch throws earlier and writes nothing); an
empty list returns immediately *without* touching the sync-state file;
otherwise `view_time` for every insert is `Math.floor(Date.now()/1000)`
captured after the fetch, and that same value is persisted as
`lastSyncTime` at the end. -/
def sync (nowMs : Int) (lastSyncTime : Int) (entries : List Entry)
    (db : List (Store.HRow String)) : Out :=
  let isFirst : Bool := lastSyncTime = 0
  if entries = [] then ⟨.ok (0, 0), db, none, 0⟩
  else
    let currentTime := Int.fdiv nowMs 1000
    let (newItems, skipped) :=
      processEntries nowMs currentTime lastSyncTime isFirst db entries 0 []
    let db' := newItems.foldl Store.insertOrIgnore db
    ⟨.ok (newItems.length, 0), db', some currentTime, skipped⟩

/-- `YouTubeProvider.deleteRemote(item)`: unimplemented — logs a notice
and resolves `false` for every input. -/
def deleteRemote (_item : Store.HRow String) : Except String Bool × List String :=
  (.ok false, ["[YouTube] 删除远程记录功能暂未实现"])

end YouTube

/-! ## JavaScript `Date` model

`YouTubeCDPProvider._parseDateString` does calendar arithmetic through the
JS `Date` object, which works in the *process-local* timezone.  The model
makes that timezone explicit as a fixed offset `envMin` in minutes east of
UTC (the Docker deployment sets no `TZ`, i.e. `envMin = 0`); instants are
Unix milliseconds.  Civil-calendar conversions use the standard
days-from-civil / civil-from-days algorithms over `Int` with floor
division. -/

namespace JsDate

/-- Day count since 1970-01-01 of the Gregorian date `y-m-d` (`m` 1-based;
out-of-range `d` rolls over linearly exactly as `new Date(y, m, d)`
does). -/
def daysFromCivil (y m d : Int) : Int :=
  let y2 := if m ≤ 2 then y - 1 else y
  let era := Int.fdiv y2 400
  let yoe := y2 - era * 400
  let mp := Int.fmod (m + 9) 12
  let doy := Int.fdiv (153 * mp + 2) 5 + (d - 1)
  let doe := yoe * 365 + Int.fdiv yoe 4 - Int.fdiv yoe 100 + doy
  era * 146097 + doe - 719468

/-- Gregorian `(year, month, day)` (month 1-based) of a day index. -/
def civilFromDays (z0 : Int) : Int × Int × Int :=
  let z := z0 + 719468
  let era := Int.fdiv z 146097
  let doe := z - era * 146097
  let yoe :=
    Int.fdiv (doe - Int.fdiv doe 1460 + Int.fdiv doe 36524 - Int.fdiv doe 146096) 365
  let y := yoe + era * 400
  let doy := doe - (365 * yoe + Int.fdiv yoe 4 - Int.fdiv yoe 100)
  let mp := Int.fdiv (5 * doy + 2) 153
  let d := doy - Int.fdiv (153 * mp + 2) 5 + 1
  let m := mp + (if mp < 10 then 3 else -9)
  (if m ≤ 2 then y + 1 else y, m, d)

/-- Local calendar day index containing the instant `nowMs`. -/
def localDayIndex (envMin nowMs : Int) : Int :=
  Int.fdiv (nowMs + envMin * 60000) 86400000

/-- `getTime()` of local midnight of a local day index
(`setHours(0,0,0,0)` lands here). -/
def midnightMs (envMin dayIdx : Int) : Int :=
  dayIdx * 86400000 - envMin * 60000

/-- `new Date(year, monthIndex, day).getTime()` (`monthIndex` 0-based,
hours zero). -/
def newDateMs (envMin y mIdx d : Int) : Int :=
  daysFromCivil y (mIdx + 1) d * 86400000 - envMin * 60000

/-- `now.getFullYear()`. -/
def getFullYear (envMin nowMs : Int) : Int :=
  (civilFromDays (localDayIndex envMin nowMs)).1

/-- `now.getDay()` (0 = Sunday; 1970-01-01 was a Thursday). -/
def getDay (envMin nowMs : Int) : Int :=
  Int.fmod (localDayIndex envMin nowMs + 4) 7

end JsDate

namespace YouTubeCDP

/-- `monthMap` of `_parseDateString` (0-based month index). -/
def monthMap (s : String) : Option Int :=
  if s = "Jan" then some 0 else if s = "Feb" then some 1
  else if s = "Mar" then some 2 else if s = "Apr" then some 3
  else if s = "May" then some 4 else if s = "Jun" then some 5
  else if s = "Jul" then some 6 else if s = "Aug" then some 7
  else if s = "Sep" then some 8 else if s = "Oct" then some 9
  else if s = "Nov" then some 10 else if s = "Dec" then some 11
  else none

/-- `weekdayMap` of `_parseDateString` (JS `getDay` numbering). -/
def weekdayMap (s : String) : Option Int :=
  if s = "Monday" then some 1 else if s = "Tuesday" then some 2
  else if s = "Wednesday" then some 3 else if s = "Thursday" then some 4
  else if s = "Friday" then some 5 else if s = "Saturday" then some 6
  else if s = "Sunday" then some 0
  else none

/-- The `\s` class of the source's regexes (ASCII part). -/
def isJsSpace (c : Char) : Bool :=
  c = ' ' ∨ c = '\t' ∨ c = '\n' ∨ c = '\r' ∨ c.toNat = 11 ∨ c.toNat = 12

/-- Numeric value of a digit string (`parseInt` on a `\d+` match). -/
def digitsToNat (ds : List Char) : Nat :=
  ds.foldl (fun a c => a * 10 + (c.toNat - 48)) 0

/-- Match `[A-Z][a-z]{2}` at the front. -/
def matchMonthToken : List Char → Option (String × List Char)
  | c0 :: c1 :: c2 :: rest =>
    if ('A' ≤ c0 ∧ c0 ≤ 'Z') ∧ ('a' ≤ c1 ∧ c1 ≤ 'z') ∧ ('a' ≤ c2 ∧ c2 ≤ 'z')
    then some (String.mk [c0, c1, c2], rest) else none
  | _ => none

/-- Match `\s+` at the front. -/
def matchSpaces1 (l : List Char) : Option (List Char) :=
  if l.takeWhile isJsSpace = [] then none else some (l.dropWhile isJsSpace)

/-- Match a maximal digit run whose length lies in `[lo, hi]` (how an
anchored `\d{lo,hi}` behaves when followed by a non-digit or the end). -/
def matchDigits (lo hi : Nat) (l : List Char) :
    Option (Nat × List Char) :=
  let ds := l.takeWhile Char.isDigit
  if lo ≤ ds.length ∧ ds.length ≤ hi then
    some (digitsToNat ds, l.dropWhile Char.isDigit)
  else none

/-- The regex `^([A-Z][a-z]{2})\s+(\d{1,2}),\s+(\d{4})$` of format 1
("Dec 15, 2025"). -/
def regexFullDate (s : String) : Option (String × Nat × Nat) := do
  let (mon, r1) ← matchMonthToken s.toList
  let r2 ← matchSpaces1 r1
  let (day, r3) ← matchDigits 1 2 r2
  match r3 with
  | ',' :: r4 => do
    let r5 ← matchSpaces1 r4
    let (year, r6) ← matchDigits 4 4 r5
    if r6 = [] then pure (mon, day, year) else none
  | _ => none

/-- The regex `^([A-Z][a-z]{2})\s+(\d{1,2})$` of format 2 ("Jan 26"). -/
def regexMonthDay (s : String) : Option (String × Nat) := do
  let (mon, r1) ← matchMonthToken s.toList
  let r2 ← matchSpaces1 r1
  let (day, r3) ← matchDigits 1 2 r2
  if r3 = [] then pure (mon, day) else none

/-- `String.prototype.trim` (ASCII whitespace). -/
def trimChars (l : List Char) : List Char :=
  ((l.dropWhile isJsSpace).reverse.dropWhile isJsSpace).reverse

/-- Format 3 of `_parseDateString` and the final fallback: a weekday name
resolves to the most recent *past* occurrence of that weekday (`daysAgo`
of zero or less gains 7, so never today); anything else falls back to the
current timestamp. -/
def parseFormat3 (envMin tzOff nowMs : Int) (dateStr : String) : Int :=
  match weekdayMap (String.mk (trimChars dateStr.data)) with
  | some target =>
    let current := JsDate.getDay envMin nowMs
    let daysAgo0 := current - target
    let daysAgo := if daysAgo0 ≤ 0 then daysAgo0 + 7 else daysAgo0
    Int.fdiv
      (JsDate.midnightMs envMin (JsDate.localDayIndex envMin nowMs - daysAgo)
        - tzOff * 3600000) 1000
  | none => Int.fdiv nowMs 1000

/-- Format 2 of `_parseDateString`: month + day, current year by default,
rolled back one year when the candidate date lies strictly in the future
of `now`; an unrecognized month abbreviation falls through. -/
def parseFormat2 (envMin tzOff nowMs : Int) (dateStr : String) : Int :=
  match regexMonthDay dateStr with
  | some (mon, day) =>
    match monthMap mon with
    | some mIdx =>
      let year := JsDate.getFullYear envMin nowMs
      let testMs := JsDate.newDateMs envMin year mIdx (day : Int)
      let year := if testMs > nowMs then year - 1 else year
      Int.fdiv
        (JsDate.newDateMs envMin year mIdx (day : Int) - tzOff * 3600000) 1000
    | none => parseFormat3 envMin tzOff nowMs dateStr
  | none => parseFormat3 envMin tzOff nowMs dateStr

/-- Format 1 of `_parseDateString`: a full "Mon D, YYYY" date at local
midnight; an unrecognized month abbreviation falls through. -/
def parseFormat1 (envMin tzOff nowMs : Int) (dateStr : String) : Int :=
  match regexFullDate dateStr with
  | some (mon, day, year) =>
    match monthMap mon with
    | some mIdx =>
      Int.fdiv
        (JsDate.newDateMs envMin (year : Int) mIdx (day : Int)
          - tzOff * 3600000) 1000
    | none => parseFormat2 envMin tzOff nowMs dateStr
  | none => parseFormat2 envMin tzOff nowMs dateStr

/-- `YouTubeCDPProvider._parseDateString(dateStr)`: "today"/"yesterday"
(case-insensitive, trimmed) resolve to local midnight of today/yesterday;
otherwise formats 1–3 in order; every resolved midnight is shifted by the
configured `timezoneOffset` hours and floored to Unix seconds. -/
def parseDateString (envMin tzOff nowMs : Int) (dateStr : String) : Int :=
  let lower := (trimChars dateStr.data).map Char.toLower
  if lower = "today".data then
    Int.fdiv
      (JsDate.midnightMs envMin (JsDate.localDayIndex envMin nowMs)
        - tzOff * 3600000) 1000
  else if lower = "yesterday".data then
    Int.fdiv
      (JsDate.midnightMs envMin (JsDate.localDayIndex envMin nowMs - 1)
        - tzOff * 3600000) 1000
  else parseFormat1 envMin tzOff nowMs dateStr

end YouTubeCDP

namespace YouTubeCDP

/-- One raw item extracted from the rendered history page
(`_extractVideosWithTime` only emits items whose title, date header and
video id are all non-empty). -/
structure Item where
  id : String
  title : String
  url : String
  vtype : String
  channelName : String
  dateHeader : String
deriving DecidableEq, Repr

/-- `_getThumbnailUrl(videoId)` with the default quality. -/
def getThumbnailUrl (videoId : String) : String :=
  if videoId = "" then ""
  else "https://i.ytimg.com/vi/" ++ videoId ++ "/hqdefault.jpg"

/-- `YouTubeCDPProvider.normalizeItem(item)`: the view time is the parsed
date header — per item, not a run-level constant. -/
def normalizeItem (envMin tzOff nowMs : Int) (item : Item) :
    Store.HRow String :=
  { id := item.id
    platform := "youtube"
    business := "video"
    bvid := item.id
    cid := 0
    title := item.title
    tag_name := if item.vtype = "shorts" then "shorts" else ""
    cover := getThumbnailUrl item.id
    viewTime := parseDateString envMin tzOff nowMs item.dateHeader
    uri := item.url
    author_name := item.channelName
    author_mid := 0
    timestamp := nowMs }

/-- The `batchInsert` transaction of `sync()`: rows are inserted one by
one (later lookups see earlier inserts of the same run); an existing id
on an incremental run with stored `view_time >= lastSyncTime` stops the
whole loop, an existing id with an older stored `view_time` is counted
as skipped. -/
def insertLoop (isFirst : Bool) (lastSyncTime : Int) :
    List (Store.HRow String) → List (Store.HRow String) → Nat → Nat →
    List (Store.HRow String) × Nat × Nat × Bool
  | [], db, n, sk => (db, n, sk, false)
  | it :: its, db, n, sk =>
    match Store.getById db it.id "youtube" with
    | some existing =>
      if ¬isFirst ∧ existing.viewTime ≥ lastSyncTime then (db, n, sk, true)
      else insertLoop isFirst lastSyncTime its db n (sk + 1)
    | none =>
      insertLoop isFirst lastSyncTime its (Store.insertOrIgnore db it)
        (n + 1) sk

/-- Run result of the CDP `sync()`: counts, final store, persisted
`lastSyncTime` when the sync-state file was written, skipped count, and
whether the loop stopped early. -/
structure Out where
  outcome : Except String (Nat × Nat)
  db : List (Store.HRow String)
  saved : Option Int
  skipped : Nat
  stopped : Bool
deriving Repr

/-- `YouTubeCDPProvider.sync()` after page extraction: `rawItems` is what
`_extractVideosWithTime` returned.  An empty extraction returns without
writing the sync state; otherwise the persisted `lastSyncTime` is the
*first extracted item's* parsed `viewTime` (`currentSyncTime`), whatever
was stored before. -/
def sync (envMin tzOff nowMs lastSyncTime : Int) (rawItems : List Item)
    (db : List (Store.HRow String)) : Out :=
  let isFirst : Bool := lastSyncTime = 0
  if rawItems = [] then ⟨.ok (0, 0), db, none, 0, false⟩
  else
    let items := rawItems.map (normalizeItem envMin tzOff nowMs)
    let currentSyncTime :=
      match items with
      | it :: _ => it.viewTime
      | [] => Int.fdiv nowMs 1000
    let (db', n, sk, stopped) := insertLoop isFirst lastSyncTime items db 0 0
    ⟨.ok (n, 0), db', some currentSyncTime, sk, stopped⟩

/-- `YouTubeCDPProvider.deleteRemote(item)`: unimplemented — logs a notice
and resolves `false` for every input. -/
def deleteRemote (_item : Store.HRow String) : Except String Bool × List String :=
  (.ok false, ["[YouTube-CDP] 删除远程记录功能暂未实现"])

end YouTubeCDP

namespace Bilibili

/-- Left-to-right scan of `/bili_jct=([^;]+)/`: at each position, when
the literal `bili_jct=` matches and at least one non-`;` character
follows, the captured run is returned; otherwise the scan advances one
character. -/
def getBiliJctAux : List Char → Option (List Char)
  | [] => none
  | c :: rest =>
    if ("bili_jct=".data).isPrefixOf (c :: rest) then
      let v := ((c :: rest).drop 9).takeWhile (fun ch => ch ≠ ';')
      if v ≠ [] then some v else getBiliJctAux rest
    else getBiliJctAux rest

/-- `BilibiliProvider.getBiliJct(cookie)`: value captured by the first
match of `/bili_jct=([^;]+)/` (at least one non-`;` character). -/
def getBiliJct (cookie : String) : Option String :=
  (getBiliJctAux cookie.data).map String.mk

/-- One JSON response of the history-delete endpoint (the `ok` flag is
never consulted by `deleteRemote`). -/
structure DResp where
  code : Int
  message : Option String
deriving DecidableEq, Repr

/-- Result of `deleteRemote`: outcome, forced cookie refreshes, remaining
transport script. -/
structure DelOut where
  outcome : Except SyncErr Bool
  refreshes : Nat
  remaining : List DResp
deriving Repr

/-- `BilibiliProvider.deleteRemote(item, isRetry)`: requires a `bili_jct`
in the cookie; a non-zero code classified as an auth error on a non-retry
call with CookieCloud available refreshes the cookie and retries exactly
once; otherwise the error is thrown; code 0 resolves `true`. -/
def deleteRemote (cookie : String) (canRefresh : Bool) :
    List DResp → Bool → DelOut
  | [], _ =>
    match getBiliJct cookie with
    | none =>
      ⟨.error (.apiError "Bilibili: 未找到 bili_jct，请检查 cookie 配置"), 0, []⟩
    | some _ => ⟨.error .transportExhausted, 0, []⟩
  | r :: rest, isRetry =>
    match getBiliJct cookie with
    | none =>
      ⟨.error (.apiError "Bilibili: 未找到 bili_jct，请检查 cookie 配置"), 0,
        r :: rest⟩
    | some _ =>
      if r.code ≠ 0 then
        if isAuthError r.code r.message then
          if isRetry ∨ ¬canRefresh then
            ⟨.error (.authError (jsStrOr r.message "Bilibili: 删除远程记录失败")),
              0, rest⟩
          else
            let o := deleteRemote cookie canRefresh rest true
            ⟨o.outcome, o.refreshes + 1, o.remaining⟩
        else
          ⟨.error (.apiError (jsStrOr r.message "Bilibili: 删除远程记录失败")),
            0, rest⟩
      else ⟨.ok true, 0, rest⟩

end Bilibili

/-! ## CookieCloud client decryption (`CookieCloudClient._decrypt`)

The framing and key-derivation logic is the client's own; MD5, AES-256-CBC
(with its PKCS#7 padding) and base64 are platform library primitives
(`crypto`, `evp_bytestokey`, `Buffer`), abstracted as a structure of
functions with their inverse laws. -/

namespace CookieCloud

/-- One octet. -/
abbrev Byte := Fin 256

/-- UTF-8 bytes of a string (the configuration strings involved are
ASCII). -/
def strToBytes (s : String) : List Byte :=
  s.data.map (fun c => ⟨c.toNat % 256, Nat.mod_lt _ (by norm_num)⟩)

/-- Lowercase hex digit. -/
def hexDigit (n : Nat) : Char :=
  "0123456789abcdef".toList.getD n 'x'

/-- Lowercase hex rendering of a digest (`digest('hex')`). -/
def bytesToHexChars (bs : List Byte) : List Char :=
  bs.foldr
    (fun b acc => hexDigit (b.val / 16) :: hexDigit (b.val % 16) :: acc) []

/-- `CookieCloudClient._generateKey()`: the first 16 hex characters of
`MD5(uuid + "-" + password)` (`hash.substring(0, 16)`). -/
def generateKey (md5 : List Byte → List Byte) (uuid password : String) :
    String :=
  String.mk
    ((bytesToHexChars (md5 (strToBytes (uuid ++ "-" ++ password)))).take 16)

/-- The digest-concatenation loop of OpenSSL `EVP_BytesToKey` with a
single MD5 round: `D1 = MD5(password ‖ salt)`,
`Dn = MD5(D(n-1) ‖ password ‖ salt)`, concatenated until `total` bytes are
available.  The fuel bounds the iteration count. -/
def evpLoop (md5 : List Byte → List Byte) (password salt : List Byte)
    (total : Nat) : Nat → List Byte → List Byte → List Byte
  | 0, _, acc => acc
  | fuel + 1, prev, acc =>
    let d := md5 (prev ++ password ++ salt)
    let acc2 := acc ++ d
    if total ≤ acc2.length then acc2
    else evpLoop md5 password salt total fuel d acc2

/-- `EVP_BytesToKey(password, salt, 256, 16)`: a 32-byte key and a
16-byte IV. -/
def evpBytesToKey (md5 : List Byte → List Byte) (password salt : List Byte)
    (keyLen ivLen : Nat) : List Byte × List Byte :=
  let m := evpLoop md5 password salt (keyLen + ivLen) (keyLen + ivLen) [] []
  (m.take keyLen, (m.drop keyLen).take ivLen)

/-- The fixed 8-byte `Salted__` format marker. -/
def saltedMagic : List Byte := strToBytes "Salted__"

/-- The platform crypto primitives `_decrypt` calls, with the inverse laws
the libraries guarantee: CBC decryption under the same key/IV undoes CBC
encryption (including padding), and base64 decoding undoes encoding. -/
structure CryptoPrims where
  md5 : List Byte → List Byte
  aesEncCBC : List Byte → List Byte → List Byte → List Byte
  aesDecCBC : List Byte → List Byte → List Byte → List Byte
  b64encode : List Byte → String
  b64decode : String → List Byte
  aes_roundtrip : ∀ key iv m, aesDecCBC key iv (aesEncCBC key iv m) = m
  b64_roundtrip : ∀ b, b64decode (b64encode b) = b

/-- Error message of the magic-marker check. -/
def magicErrMsg : String := "加密数据格式错误：缺少 Salted__ 前缀"

/-- `CookieCloudClient._decrypt(encrypted)` down to the decrypted UTF-8
bytes (the source then feeds them to `JSON.parse`): base64-decode, check
the 8-byte `Salted__` marker, split off the 8-byte salt, derive key and IV
via `EVP_BytesToKey` from the 16-hex-character key, AES-256-CBC
decrypt. -/
def decrypt (P : CryptoPrims) (uuid password : String) (encrypted : String) :
    Except String (List Byte) :=
  let pwd := generateKey P.md5 uuid password
  let buf := P.b64decode encrypted
  if buf.take 8 ≠ saltedMagic then .error magicErrMsg
  else
    let salt := (buf.drop 8).take 8
    let ciphertext := buf.drop 16
    let ki := evpBytesToKey P.md5 (strToBytes pwd) salt 32 16
    .ok (P.aesDecCBC ki.1 ki.2 ciphertext)

/-- The encryption scheme the spec documents (the CookieCloud server
side): base64 of magic ‖ salt ‖ AES-256-CBC ciphertext, under the key/IV
derived exactly as in `_decrypt`. -/
def encryptDocumented (P : CryptoPrims) (uuid password : String)
    (salt payload : List Byte) : String :=
  let pwd := generateKey P.md5 uuid password
  let ki := evpBytesToKey P.md5 (strToBytes pwd) salt 32 16
  P.b64encode (saltedMagic ++ salt ++ P.aesEncCBC ki.1 ki.2 payload)

set_option maxRecDepth 8192 in
/-- A concrete instance of the primitive interface (for witnesses): a
constant digest, the identity cipher, and byte↔char base64 stand-ins —
each satisfying the stated laws. -/
def idPrims : CryptoPrims where
  md5 := fun _ => List.replicate 16 ⟨0, by norm_num⟩
  aesEncCBC := fun _ _ m => m
  aesDecCBC := fun _ _ c => c
  b64encode := fun b => String.mk (b.map (fun x => Char.ofNat x.val))
  b64decode := fun s =>
    s.data.map (fun c => ⟨c.toNat % 256, Nat.mod_lt _ (by norm_num)⟩)
  aes_roundtrip := fun _ _ _ => rfl
  b64_roundtrip := by
    intro b
    have h : ∀ x : Byte,
        ((⟨(Char.ofNat x.val).toNat % 256, Nat.mod_lt _ (by norm_num)⟩ : Byte))
          = x := by decide
    show (b.map (fun x => Char.ofNat x.val)).map _ = b
    rw [List.map_map]
    have : ∀ l : List Byte, l.map
        ((fun c : Char => (⟨c.toNat % 256, Nat.mod_lt _ (by norm_num)⟩ : Byte)) ∘
          fun x : Byte => Char.ofNat x.val) = l := by
      intro l
      induction l with
      | nil => rfl
      | cons x xs ih => simp [ih, h x, Function.comp]
    exact this b

end CookieCloud

/-! ## Claim theorems -/

/-- C8, counterexample.  The claim caps the generic request-level retry at
"at most 3 attempts in total", but `fetchWithRetry` with its default
budget (`maxRetries = 3`) performs the initial attempt *plus* three
retries: a transport that always throws is hit 4 times. -/
theorem C8_counterexample :
    (fetchWithRetry (fun _ => FetchAttempt.throwErr "ECONNRESET")
      retryDelayMs 0 maxRetries).attempts = 4 ∧
    ¬ (fetchWithRetry (fun _ => FetchAttempt.throwErr "ECONNRESET")
      retryDelayMs 0 maxRetries).attempts ≤ 3 := by
  decide

/-- C8, amended.  The generic retry triggers only on thrown fetch errors —
a resolved response is returned after a single attempt whatever its HTTP
status — waits the fixed 2000 ms backoff between tries, and performs at
most `retries + 1` attempts (4 in total with the default budget of 3)
before surfacing the failure; it is never unbounded. -/
theorem C8_amended :
    (∀ (att : Nat → FetchAttempt) (i retries : Nat) (ok : Bool) (status : Nat),
      att i = FetchAttempt.respond ok status →
      fetchWithRetry att retryDelayMs i retries = ⟨.ok (ok, status), 1, []⟩) ∧
    (∀ (att : Nat → FetchAttempt) (i retries : Nat),
      (fetchWithRetry att retryDelayMs i retries).attempts ≤ retries + 1) ∧
    (∀ (att : Nat → FetchAttempt) (i : Nat),
      (fetchWithRetry att retryDelayMs i maxRetries).attempts ≤ 4) ∧
    (∀ (att : Nat → FetchAttempt) (i retries d : Nat),
      d ∈ (fetchWithRetry att retryDelayMs i retries).sleeps →
      d = retryDelayMs) := by
  have hresp : ∀ (att : Nat → FetchAttempt) (i retries : Nat) (ok : Bool)
      (status : Nat), att i = FetchAttempt.respond ok status →
      fetchWithRetry att retryDelayMs i retries = ⟨.ok (ok, status), 1, []⟩ := by
    intro att i retries ok status h
    cases retries <;> simp [fetchWithRetry, h]
  have hbound : ∀ (retries i : Nat) (att : Nat → FetchAttempt),
      (fetchWithRetry att retryDelayMs i retries).attempts ≤ retries + 1 := by
    intro retries
    induction retries with
    | zero =>
      intro i att
      cases h : att i <;> simp [fetchWithRetry, h]
    | succ n ih =>
      intro i att
      cases h : att i with
      | respond ok status => simp [fetchWithRetry, h]
      | throwErr m =>
        simp only [fetchWithRetry, h]
        exact Nat.succ_le_succ (ih (i + 1) att)
  have hsleep : ∀ (retries i : Nat) (att : Nat → FetchAttempt) (d : Nat),
      d ∈ (fetchWithRetry att retryDelayMs i retries).sleeps →
      d = retryDelayMs := by
    intro retries
    induction retries with
    | zero =>
      intro i att d hd
      cases h : att i <;> simp [fetchWithRetry, h] at hd
    | succ n ih =>
      intro i att d hd
      cases h : att i with
      | respond ok status => simp [fetchWithRetry, h] at hd
      | throwErr m =>
        simp only [fetchWithRetry, h, List.mem_cons] at hd
        rcases hd with hd | hd
        · exact hd
        · exact ih (i + 1) att d hd
  exact ⟨hresp, fun att i retries => hbound retries i att,
    fun att i => hbound maxRetries i att,
    fun att i retries d => hsleep retries i att d⟩

/-- C8, witness for the amended theorem: a response with HTTP 500 is
surfaced after exactly one attempt, and the always-failing transport stays
within the 4-attempt bound with all backoffs equal to 2000 ms. -/
theorem C8_amended_witness :
    fetchWithRetry (fun _ => FetchAttempt.respond false 500) retryDelayMs 0
        maxRetries = ⟨.ok (false, 500), 1, []⟩ ∧
    (fetchWithRetry (fun _ => FetchAttempt.throwErr "ECONNRESET")
      retryDelayMs 0 maxRetries).attempts ≤ 4 :=
  ⟨C8_amended.1 (fun _ => FetchAttempt.respond false 500) 0 maxRetries
      false 500 rfl,
    C8_amended.2.2.1 (fun _ => FetchAttempt.throwErr "ECONNRESET") 0⟩

/-- A `deleteRemote` variant is unimplemented when it resolves `false` for
every input record (never throwing). -/
def deleteRemoteUnimplemented
    (f : Store.HRow String → Except String Bool × List String) : Prop :=
  ∀ item, (f item).1 = Except.ok false

/-- C7, counterexample.  The claim counts exactly *two* of the four
platform variants as unimplemented, but three are: the yt-dlp YouTube,
CDP YouTube and xiaoyuzhou variants all resolve `false` unconditionally,
while only the Bilibili variant actually deletes (it resolves `true` on a
code-0 response when the cookie holds a `bili_jct`). -/
theorem C7_counterexample :
    deleteRemoteUnimplemented YouTube.deleteRemote ∧
    deleteRemoteUnimplemented YouTubeCDP.deleteRemote ∧
    deleteRemoteUnimplemented Xiaoyuzhou.deleteRemote ∧
    (Bilibili.deleteRemote "bili_jct=abc" true [⟨0, none⟩] false).outcome
      = Except.ok true :=
  ⟨fun _ => rfl, fun _ => rfl, fun _ => rfl, by decide⟩

/-- C7, amended.  `deleteRemote` is unimplemented in exactly three of the
four platform provider variants — yt-dlp YouTube, CDP YouTube and
xiaoyuzhou — each of which, for every input record, returns `false` with a
logged notice and never throws; the Bilibili variant implements remote
deletion. -/
theorem C7_amended :
    (∀ item, YouTube.deleteRemote item =
      (Except.ok false, ["[YouTube] 删除远程记录功能暂未实现"])) ∧
    (∀ item, YouTubeCDP.deleteRemote item =
      (Except.ok false, ["[YouTube-CDP] 删除远程记录功能暂未实现"])) ∧
    (∀ item, Xiaoyuzhou.deleteRemote item =
      (Except.ok false, ["[Xiaoyuzhou] 删除远程记录功能暂未实现"])) ∧
    (Bilibili.deleteRemote "bili_jct=abc" true [⟨0, none⟩] false).outcome
      = Except.ok true :=
  ⟨fun _ => rfl, fun _ => rfl, fun _ => rfl, by decide⟩

/-- C6.  `_decrypt` is the inverse of the documented encryption scheme:
for every payload, uuid, password and 8-byte salt — over any primitives
satisfying the AES-CBC and base64 inverse laws — decrypting the base64 of
magic ‖ salt ‖ AES-256-CBC ciphertext under the EVP_BytesToKey-derived
key/IV (from the 16-hex-char MD5 key) returns the original payload bytes;
and any input whose first 8 decoded bytes differ from the `Salted__`
marker is rejected with the format error. -/
theorem C6_decrypt_inverse :
    (∀ (P : CookieCloud.CryptoPrims) (uuid password : String)
      (salt payload : List CookieCloud.Byte), salt.length = 8 →
      CookieCloud.decrypt P uuid password
        (CookieCloud.encryptDocumented P uuid password salt payload)
        = Except.ok payload) ∧
    (∀ (P : CookieCloud.CryptoPrims) (uuid password s : String),
      (P.b64decode s).take 8 ≠ CookieCloud.saltedMagic →
      CookieCloud.decrypt P uuid password s
        = Except.error CookieCloud.magicErrMsg) := by
  constructor
  · intro P uuid password salt payload hsalt
    have hmagic : CookieCloud.saltedMagic.length = 8 := by decide
    simp only [CookieCloud.decrypt, CookieCloud.encryptDocumented,
      P.b64_roundtrip]
    set pwd :=
      CookieCloud.strToBytes (CookieCloud.generateKey P.md5 uuid password)
      with hpwd
    set ki := CookieCloud.evpBytesToKey P.md5 pwd salt 32 16 with hki
    set ct := P.aesEncCBC ki.1 ki.2 payload with hct
    have htake :
        (CookieCloud.saltedMagic ++ salt ++ ct).take 8
          = CookieCloud.saltedMagic := by
      rw [List.append_assoc, ← hmagic, List.take_left]
    have hdrop8 :
        (CookieCloud.saltedMagic ++ salt ++ ct).drop 8 = salt ++ ct := by
      rw [List.append_assoc, ← hmagic, List.drop_left]
    have hslice :
        ((CookieCloud.saltedMagic ++ salt ++ ct).drop 8).take 8 = salt := by
      rw [hdrop8, ← hsalt, List.take_left]
    have hdrop16 :
        (CookieCloud.saltedMagic ++ salt ++ ct).drop 16 = ct := by
      have hlen : (CookieCloud.saltedMagic ++ salt).length = 16 := by
        simp [hmagic, hsalt]
      rw [← hlen, List.drop_left]
    rw [if_neg (show ¬((CookieCloud.saltedMagic ++ salt ++ ct).take 8
          ≠ CookieCloud.saltedMagic) from by
        rw [htake]
        exact not_not_intro rfl),
      hslice, hdrop16, ← hki, hct, P.aes_roundtrip]
  · intro P uuid password s h
    simp only [CookieCloud.decrypt]
    rw [if_pos h]

/-- C6, witness: a concrete payload, uuid, password and all-zero 8-byte
salt over the concrete primitive instance round-trips, and a blob whose
decoded bytes lack the marker is rejected. -/
theorem C6_decrypt_inverse_witness :
    CookieCloud.decrypt CookieCloud.idPrims "myuuid" "mypass"
      (CookieCloud.encryptDocumented CookieCloud.idPrims "myuuid" "mypass"
        (List.replicate 8 (37 : CookieCloud.Byte))
        (CookieCloud.strToBytes "payload"))
      = Except.ok (CookieCloud.strToBytes "payload") ∧
    CookieCloud.decrypt CookieCloud.idPrims "myuuid" "mypass" "x"
      = Except.error CookieCloud.magicErrMsg :=
  ⟨C6_decrypt_inverse.1 CookieCloud.idPrims "myuuid" "mypass"
      (List.replicate 8 (37 : CookieCloud.Byte))
      (CookieCloud.strToBytes "payload") (by decide),
    C6_decrypt_inverse.2 CookieCloud.idPrims "myuuid" "mypass" "x"
      (by decide)⟩

/-- Shift a local-midnight instant (ms, at a UTC process clock) by the
configured UTC+8 offset and floor to Unix seconds — the arithmetic every
branch of `_parseDateString` ends with. -/
theorem fdiv_shift_utc8 (k : Int) :
    Int.fdiv (k * 86400000 - 28800000) 1000 = k * 86400 - 28800 := by
  have h : k * 86400000 - 28800000 = (k * 86400 - 28800) * 1000 := by ring
  rw [h, Int.mul_fdiv_cancel _ (by norm_num)]

/-- C5.  With the process clock in UTC (the deployment default) and the
configured offset UTC+8, `_parseDateString` maps `"Today"` to the current
calendar day's 00:00 in UTC+8 as Unix seconds; it maps `"Jan 26"` to
January 26 at 00:00 UTC+8 of the current year, rolled back exactly one
year when that date lies in the future of `now` — in particular `"Jan 26"`
resolves to 2024-01-26 when now is 2025-01-10 and to 2025-01-26 when now
is 2025-02-10. -/
theorem C5_parseDateString :
    (∀ nowMs : Int,
      YouTubeCDP.parseDateString 0 8 nowMs "Today"
        = Int.fdiv nowMs 86400000 * 86400 - 8 * 3600) ∧
    (∀ nowMs : Int,
      YouTubeCDP.parseDateString 0 8 nowMs "Jan 26"
        = (if JsDate.daysFromCivil (JsDate.getFullYear 0 nowMs) 1 26 * 86400000
              > nowMs
            then JsDate.daysFromCivil (JsDate.getFullYear 0 nowMs - 1) 1 26
            else JsDate.daysFromCivil (JsDate.getFullYear 0 nowMs) 1 26)
            * 86400 - 8 * 3600) ∧
    YouTubeCDP.parseDateString 0 8 1736467200000 "Jan 26" = 1706198400 ∧
    YouTubeCDP.parseDateString 0 8 1739145600000 "Jan 26" = 1737820800 := by
  refine ⟨?_, ?_, by decide, by decide⟩
  · intro nowMs
    simp only [YouTubeCDP.parseDateString]
    rw [if_pos (by decide)]
    simp only [JsDate.midnightMs, JsDate.localDayIndex]
    norm_num
    exact fdiv_shift_utc8 _
  · intro nowMs
    have h1 : YouTubeCDP.regexFullDate "Jan 26" = none := by decide
    have h2 : YouTubeCDP.regexMonthDay "Jan 26" = some ("Jan", 26) := by
      decide
    have h3 : YouTubeCDP.monthMap "Jan" = some 0 := by decide
    simp only [YouTubeCDP.parseDateString]
    rw [if_neg (by decide), if_neg (by decide)]
    simp only [YouTubeCDP.parseFormat1, YouTubeCDP.parseFormat2, h1, h2, h3]
    simp only [JsDate.newDateMs]
    norm_num
    by_cases hc :
        JsDate.daysFromCivil (JsDate.getFullYear 0 nowMs) 1 26 * 86400000
          > nowMs
    · rw [if_pos hc, if_pos hc]
      have := fdiv_shift_utc8
        (JsDate.daysFromCivil (JsDate.getFullYear 0 nowMs - 1) 1 26)
      omega
    · rw [if_neg hc, if_neg hc]
      have := fdiv_shift_utc8
        (JsDate.daysFromCivil (JsDate.getFullYear 0 nowMs) 1 26)
      omega

/-- Rows produced by a fold of `INSERT OR IGNORE` come from the original
store or from the inserted batch. -/
theorem Store.mem_foldl_insertOrIgnore {α : Type} [DecidableEq α] :
    ∀ (items : List (Store.HRow α)) (db : List (Store.HRow α))
      (r : Store.HRow α),
      r ∈ items.foldl Store.insertOrIgnore db → r ∈ db ∨ r ∈ items := by
  intro items
  induction items with
  | nil => intro db r h; exact Or.inl h
  | cons it its ih =>
    intro db r h
    rcases ih (Store.insertOrIgnore db it) r h with h1 | h1
    · unfold Store.insertOrIgnore at h1
      cases hg : Store.getById db it.id it.platform with
      | some _ => rw [hg] at h1; exact Or.inl h1
      | none =>
        rw [hg] at h1
        rcases List.mem_append.mp h1 with h2 | h2
        · exact Or.inl h2
        · simp only [List.mem_singleton] at h2
          subst h2
          exact Or.inr (List.mem_cons_self _ _)
    · exact Or.inr (List.mem_cons_of_mem _ h1)

/-- Every row collected by the yt-dlp entry loop beyond the accumulator
carries `view_time = currentTime`. -/
theorem YouTube.processEntries_viewTime
    (nowMs currentTime lastSyncTime : Int) (isFirst : Bool)
    (db : List (Store.HRow String)) :
    ∀ (es : List YouTube.Entry) (skipped : Nat)
      (acc : List (Store.HRow String)) (r : Store.HRow String),
      r ∈ (YouTube.processEntries nowMs currentTime lastSyncTime isFirst db
        es skipped acc).1 →
      r ∈ acc ∨ r.viewTime = currentTime := by
  intro es
  induction es with
  | nil => intro sk acc r h; exact Or.inl h
  | cons e es ih =>
    intro sk acc r h
    simp only [YouTube.processEntries] at h
    cases hid : jsTruthyStr e.id with
    | none => simp only [hid] at h; exact ih _ _ _ h
    | some v =>
      simp only [hid] at h
      cases hg : Store.getById db v "youtube" with
      | some ex =>
        simp only [hg] at h
        by_cases hb : (¬ isFirst ∧ ex.viewTime ≥ lastSyncTime)
        · rw [if_pos hb] at h; exact Or.inl h
        · rw [if_neg hb] at h; exact ih _ _ _ h
      | none =>
        simp only [hg] at h
        rcases ih _ _ _ h with h1 | h1
        · rcases List.mem_append.mp h1 with h2 | h2
          · exact Or.inl h2
          · simp only [List.mem_singleton] at h2
            subst h2
            exact Or.inr rfl
        · exact Or.inr h1

/-- Every row collected by the podcast-app page loop beyond the
accumulator carries `view_time = currentTime`. -/
theorem Xiaoyuzhou.processItems_viewTime
    (nowMs currentTime : Int) (isFirst : Bool)
    (db : List (Store.HRow String)) :
    ∀ (raws : List Xiaoyuzhou.Raw) (firstEid : Option String) (skipped : Nat)
      (acc : List (Store.HRow String)) (r : Store.HRow String),
      r ∈ (Xiaoyuzhou.processItems nowMs currentTime isFirst db raws firstEid
        skipped acc).1 →
      r ∈ acc ∨ r.viewTime = currentTime := by
  intro raws
  induction raws with
  | nil => intro fe sk acc r h; exact Or.inl h
  | cons raw rs ih =>
    intro fe sk acc r h
    simp only [Xiaoyuzhou.processItems] at h
    cases hid : jsTruthyStr raw.eid with
    | none => simp only [hid] at h; exact ih _ _ _ _ h
    | some e =>
      simp only [hid] at h
      cases hg : Store.getById db e "xiaoyuzhou" with
      | some ex =>
        simp only [hg] at h
        by_cases hb : ¬ isFirst
        · rw [if_pos hb] at h; exact Or.inl h
        · rw [if_neg hb] at h; exact ih _ _ _ _ h
      | none =>
        simp only [hg] at h
        rcases ih _ _ _ _ h with h1 | h1
        · rcases List.mem_append.mp h1 with h2 | h2
          · exact Or.inl h2
          · simp only [List.mem_singleton] at h2
            subst h2
            exact Or.inr rfl
        · exact Or.inr h1

/-- Run-level invariants of the podcast-app paging loop: every row of the
final store was present initially or was inserted with
`view_time = Math.floor(Date.now()/1000)`; a normally-completed run
persists the sync state with `lastSyncTime = Date.now()`; a thrown error
leaves the sync-state file unwritten. -/
theorem Xiaoyuzhou.syncGo_spec (nowMs : Int) (refreshOk isFirst : Bool)
    (maxPages : Nat) (prevLastEid : Option String) :
    ∀ (fuel : Nat) (resps : List Xiaoyuzhou.Resp) (pageCount : Nat)
      (st : Xiaoyuzhou.St),
      (∀ r ∈ (Xiaoyuzhou.syncGo nowMs refreshOk isFirst maxPages prevLastEid
          fuel resps pageCount st).st.db,
        r ∈ st.db ∨ r.viewTime = Int.fdiv nowMs 1000) ∧
      (∀ p, (Xiaoyuzhou.syncGo nowMs refreshOk isFirst maxPages prevLastEid
          fuel resps pageCount st).outcome = .ok p →
        ∃ le, (Xiaoyuzhou.syncGo nowMs refreshOk isFirst maxPages prevLastEid
          fuel resps pageCount st).saved = some ⟨nowMs, le⟩) ∧
      (∀ e, (Xiaoyuzhou.syncGo nowMs refreshOk isFirst maxPages prevLastEid
          fuel resps pageCount st).outcome = .error e →
        (Xiaoyuzhou.syncGo nowMs refreshOk isFirst maxPages prevLastEid
          fuel resps pageCount st).saved = none) := by
  intro fuel
  induction fuel with
  | zero =>
    intro resps pageCount st
    exact ⟨fun r hrr => Or.inl hrr, fun p hp => Except.noConfusion hp,
      fun e _ => rfl⟩
  | succ n ih =>
    intro resps pageCount st
    rw [Xiaoyuzhou.syncGo_succ]
    split
    · exact ⟨fun r hrr => Or.inl hrr, fun p _ => ⟨_, rfl⟩,
        fun e he => Except.noConfusion he⟩
    · split
      · exact ⟨fun r hrr => Or.inl hrr, fun p hp => Except.noConfusion hp,
          fun e _ => rfl⟩
      · rename_i a l
        rcases hres : (Xiaoyuzhou.fetchHistory refreshOk (a :: l) false).result
          with e | ⟨data, nextKey⟩
        · simp only [hres]
          exact ⟨fun r hrr => Or.inl hrr, fun p hp => Except.noConfusion hp,
            fun _ _ => trivial⟩
        · simp only [hres]
          by_cases hdata : data = []
          · rw [if_pos hdata]
            exact ⟨fun r hrr => Or.inl hrr, fun p _ => ⟨_, rfl⟩,
              fun e he => Except.noConfusion he⟩
          · rw [if_neg hdata]
            rcases hpi : Xiaoyuzhou.processItems nowMs (Int.fdiv nowMs 1000)
                isFirst st.db data st.firstEid st.skippedCount []
              with ⟨ni, sk', fe', stp⟩
            simp only [hpi]
            have hdb : ∀ r ∈ ni.foldl Store.insertOrIgnore st.db,
                r ∈ st.db ∨ r.viewTime = Int.fdiv nowMs 1000 := by
              intro r hrr
              rcases Store.mem_foldl_insertOrIgnore ni st.db r hrr with h1 | h1
              · exact Or.inl h1
              · have := Xiaoyuzhou.processItems_viewTime nowMs
                  (Int.fdiv nowMs 1000) isFirst st.db data st.firstEid
                  st.skippedCount [] r (by rw [hpi]; exact h1)
                rcases this with h2 | h2
                · cases h2
                · exact Or.inr h2
            cases stp with
            | true =>
              exact ⟨hdb, fun p _ => ⟨_, rfl⟩, fun e he => Except.noConfusion he⟩
            | false =>
              by_cases hkey : nextKey = none
              · rw [if_pos hkey]
                exact ⟨hdb, fun p _ => ⟨_, rfl⟩,
                  fun e he => Except.noConfusion he⟩
              · rw [if_neg hkey]
                have hrec := ih
                  (Xiaoyuzhou.fetchHistory refreshOk (a :: l) false).remaining
                  (pageCount + 1)
                  { st with
                    db := ni.foldl Store.insertOrIgnore st.db
                    newCount := st.newCount + ni.length
                    skippedCount := sk'
                    firstEid := fe'
                    fetches := st.fetches + 1 }
                refine ⟨?_, hrec.2.1, hrec.2.2⟩
                intro r hrr
                rcases hrec.1 r hrr with h1 | h1
                · exact hdb r h1
                · exact Or.inr h1

/-- C10.  In the yt-dlp YouTube provider and the podcast-app provider,
every record a `sync()` run inserts carries the identical `view_time`,
namely `Math.floor(Date.now()/1000)` captured once during the run; the
platform-reported playback data (quantified freely in the inputs) is
never used for it. -/
theorem C10_insert_viewTime :
    (∀ (nowMs lastSyncTime : Int) (entries : List YouTube.Entry)
      (db : List (Store.HRow String)) (r : Store.HRow String),
      r ∈ (YouTube.sync nowMs lastSyncTime entries db).db →
      r ∈ db ∨ r.viewTime = Int.fdiv nowMs 1000) ∧
    (∀ (nowMs : Int) (refreshOk : Bool) (maxPages : Nat)
      (lastSyncTime : Int) (prevLastEid : Option String)
      (resps : List Xiaoyuzhou.Resp) (db : List (Store.HRow String))
      (r : Store.HRow String),
      r ∈ (Xiaoyuzhou.sync nowMs refreshOk maxPages lastSyncTime prevLastEid
        resps db).st.db →
      r ∈ db ∨ r.viewTime = Int.fdiv nowMs 1000) := by
  constructor
  · intro nowMs lastSyncTime entries db r hr
    by_cases hent : entries = []
    · simp only [YouTube.sync, if_pos hent] at hr
      exact Or.inl hr
    · simp only [YouTube.sync, if_neg hent] at hr
      rcases Store.mem_foldl_insertOrIgnore _ db r hr with h1 | h1
      · exact Or.inl h1
      · have := YouTube.processEntries_viewTime nowMs (Int.fdiv nowMs 1000)
          lastSyncTime (decide (lastSyncTime = 0)) db entries 0 [] r h1
        rcases this with h2 | h2
        · cases h2
        · exact Or.inr h2
  · intro nowMs refreshOk maxPages lastSyncTime prevLastEid resps db r hr
    exact (Xiaoyuzhou.syncGo_spec nowMs refreshOk (decide (lastSyncTime = 0))
      maxPages prevLastEid (resps.length + 1) resps 0 ⟨db, 0, 0, none, 0⟩).1 r hr

/-- C10, witness: a one-entry yt-dlp run at `now = 5000 ms` inserts a row
whose membership yields `view_time = 5`, and a one-page podcast run at the
same clock does likewise. -/
theorem C10_insert_viewTime_witness :
    (YouTube.normalizeItem 5000 5 ⟨some "v1", some "t", none, []⟩ ∈
        ([] : List (Store.HRow String)) ∨
      (YouTube.normalizeItem 5000 5 ⟨some "v1", some "t", none, []⟩).viewTime
        = Int.fdiv 5000 1000) ∧
    (Xiaoyuzhou.normalizeItem 5000 5
        ⟨some "e1", none, none, some "t", none, none, none, none, 77⟩ ∈
        ([] : List (Store.HRow String)) ∨
      (Xiaoyuzhou.normalizeItem 5000 5
        ⟨some "e1", none, none, some "t", none, none, none, none, 77⟩).viewTime
        = Int.fdiv 5000 1000) :=
  ⟨C10_insert_viewTime.1 5000 0 [⟨some "v1", some "t", none, []⟩] []
      (YouTube.normalizeItem 5000 5 ⟨some "v1", some "t", none, []⟩)
      (by decide),
    C10_insert_viewTime.2 5000 true 20 0 none
      [⟨true, 200, some [⟨some "e1", none, none, some "t", none, none, none,
        none, 77⟩], none⟩] []
      (Xiaoyuzhou.normalizeItem 5000 5
        ⟨some "e1", none, none, some "t", none, none, none, none, 77⟩)
      (by decide)⟩

/-- C9, counterexample.  The CDP YouTube provider persists the *first
extracted record's parsed view time* as `lastSyncTime`: with a previously
persisted value of 1000 and one new record whose date header is
unparseable at `now = 500000 ms`, the run completes and writes 500 — an
earlier value than was stored (a rollback).  Moreover a successful yt-dlp
run that fetched zero entries returns without writing the state file at
all. -/
theorem C9_counterexample :
    (YouTubeCDP.sync 0 8 500000 1000
        [⟨"vid1", "t", "u", "video", "ch", "BadHeader"⟩] []).saved
      = some 500 ∧
    (500 : Int) < 1000 ∧
    (YouTube.sync 12345678 1000 [] []).saved = none := by
  decide

/-- C9, amended.  The podcast-app provider writes
`lastSyncTime = Date.now()` on every normally-completed sync (and nothing
on a thrown error), and the yt-dlp YouTube provider writes the captured
wall-clock seconds whenever at least one entry was fetched — both are
current-clock values, so they never move backwards under a monotone
clock; but a yt-dlp or CDP run that fetched zero records returns without
writing, and the CDP variant persists the first extracted record's parsed
viewTime, which can be earlier than the previously persisted value. -/
theorem C9_amended :
    (∀ (nowMs : Int) (refreshOk : Bool) (maxPages : Nat) (lastSyncTime : Int)
      (prevLastEid : Option String) (resps : List Xiaoyuzhou.Resp)
      (db : List (Store.HRow String)) (p : Nat × Nat),
      (Xiaoyuzhou.sync nowMs refreshOk maxPages lastSyncTime prevLastEid
        resps db).outcome = .ok p →
      ∃ le, (Xiaoyuzhou.sync nowMs refreshOk maxPages lastSyncTime prevLastEid
        resps db).saved = some ⟨nowMs, le⟩) ∧
    (∀ (nowMs : Int) (refreshOk : Bool) (maxPages : Nat) (lastSyncTime : Int)
      (prevLastEid : Option String) (resps : List Xiaoyuzhou.Resp)
      (db : List (Store.HRow String)) (e : Xiaoyuzhou.FetchErr),
      (Xiaoyuzhou.sync nowMs refreshOk maxPages lastSyncTime prevLastEid
        resps db).outcome = .error e →
      (Xiaoyuzhou.sync nowMs refreshOk maxPages lastSyncTime prevLastEid
        resps db).saved = none) ∧
    (∀ (nowMs lastSyncTime : Int) (entries : List YouTube.Entry)
      (db : List (Store.HRow String)), entries ≠ [] →
      (YouTube.sync nowMs lastSyncTime entries db).saved
        = some (Int.fdiv nowMs 1000)) ∧
    (∀ (nowMs lastSyncTime : Int) (db : List (Store.HRow String)),
      (YouTube.sync nowMs lastSyncTime [] db).saved = none) ∧
    (∀ (envMin tzOff nowMs lastSyncTime : Int) (it : YouTubeCDP.Item)
      (its : List YouTubeCDP.Item) (db : List (Store.HRow String)),
      (YouTubeCDP.sync envMin tzOff nowMs lastSyncTime (it :: its) db).saved
        = some ((YouTubeCDP.normalizeItem envMin tzOff nowMs it).viewTime)) ∧
    (∀ (envMin tzOff nowMs lastSyncTime : Int)
      (db : List (Store.HRow String)),
      (YouTubeCDP.sync envMin tzOff nowMs lastSyncTime [] db).saved
        = none) := by
  refine ⟨?_, ?_, ?_, ?_, ?_, ?_⟩
  · intro nowMs refreshOk maxPages lastSyncTime prevLastEid resps db p hp
    exact (Xiaoyuzhou.syncGo_spec nowMs refreshOk (decide (lastSyncTime = 0))
      maxPages prevLastEid (resps.length + 1) resps 0 ⟨db, 0, 0, none, 0⟩).2.1 p hp
  · intro nowMs refreshOk maxPages lastSyncTime prevLastEid resps db e he
    exact (Xiaoyuzhou.syncGo_spec nowMs refreshOk (decide (lastSyncTime = 0))
      maxPages prevLastEid (resps.length + 1) resps 0 ⟨db, 0, 0, none, 0⟩).2.2 e he
  · intro nowMs lastSyncTime entries db hne
    simp only [YouTube.sync, if_neg hne]
  · intro nowMs lastSyncTime db
    simp [YouTube.sync]
  · intro envMin tzOff nowMs lastSyncTime it its db
    rcases hil : YouTubeCDP.insertLoop (decide (lastSyncTime = 0))
        lastSyncTime ((it :: its).map
          (YouTubeCDP.normalizeItem envMin tzOff nowMs)) db 0 0
      with ⟨db', n, sk, stopped⟩
    simp only [YouTubeCDP.sync, if_neg (List.cons_ne_nil it its), List.map_cons,
      hil]
  · intro envMin tzOff nowMs lastSyncTime db
    simp [YouTubeCDP.sync]

/-- C9, witness: a concrete one-page podcast run persists
`lastSyncTime = 7000`; a concrete one-entry yt-dlp run persists `7`; a
failing (transport-exhausted) podcast run persists nothing; concrete CDP
runs persist the first item's parsed view time and skip the write when
nothing was extracted. -/
theorem C9_amended_witness :
    (∃ le, (Xiaoyuzhou.sync 7000 true 20 0 none
      [⟨true, 200, some [], none⟩] []).saved = some ⟨7000, le⟩) ∧
    (Xiaoyuzhou.sync 7000 true 20 0 none [] []).saved = none ∧
    (YouTube.sync 7000 0 [⟨some "v1", none, none, []⟩] []).saved
      = some (Int.fdiv 7000 1000) ∧
    (YouTube.sync 7000 0 [] []).saved = none ∧
    (YouTubeCDP.sync 0 8 500000 1000
        [⟨"vid1", "t", "u", "video", "ch", "BadHeader"⟩] []).saved
      = some ((YouTubeCDP.normalizeItem 0 8 500000
        ⟨"vid1", "t", "u", "video", "ch", "BadHeader"⟩).viewTime) ∧
    (YouTubeCDP.sync 0 8 500000 1000 [] []).saved = none :=
  ⟨C9_amended.1 7000 true 20 0 none [⟨true, 200, some [], none⟩] [] (0, 0)
      (by decide),
    C9_amended.2.1 7000 true 20 0 none [] [] .transportExhausted (by decide),
    C9_amended.2.2.1 7000 0 [⟨some "v1", none, none, []⟩] [] (by decide),
    C9_amended.2.2.2.1 7000 0 [],
    C9_amended.2.2.2.2.1 0 8 500000 1000
      ⟨"vid1", "t", "u", "video", "ch", "BadHeader"⟩ [] [],
    C9_amended.2.2.2.2.2 0 8 500000 1000 []⟩

/-- One-step unfolding of the Bilibili paging loop at a non-empty
transport script. -/
theorem Bilibili.syncGo_cons (nowMs : Int) (canRefresh : Bool)
    (r : Bilibili.Resp) (rest : List Bilibili.Resp) (isRetry : Bool)
    (st : Bilibili.St) :
    Bilibili.syncGo nowMs canRefresh (r :: rest) isRetry st =
      (let st := { st with pagesFetched := st.pagesFetched + 1 }
      if r.ok = false then ⟨.error .httpNotOk, st, rest⟩
      else if r.code ≠ 0 then
        if Bilibili.isAuthError r.code r.message then
          if isRetry ∨ ¬canRefresh then
            ⟨.error (.authError (jsStrOr r.message "Bilibili: 获取历史记录失败")),
              st, rest⟩
          else
            Bilibili.syncGo nowMs canRefresh rest true
              { st with
                processed := []
                newCount := 0
                updateCount := 0
                noUpdateCount := 0
                refreshes := st.refreshes + 1
                syncCalls := st.syncCalls + 1 }
        else
          ⟨.error (.apiError (jsStrOr r.message "Bilibili: 获取历史记录失败")),
            st, rest⟩
      else
        if r.list = [] then ⟨.ok (st.newCount, st.updateCount), st, rest⟩
        else
          let (p', items) := Bilibili.collectItems nowMs r.list st.processed
          let (db', n', u') := Bilibili.batchInsert items
            (st.db, st.newCount, st.updateCount)
          let hasNewOrUpdated := n' > st.newCount ∨ u' > st.updateCount
          if hasNewOrUpdated then
            Bilibili.syncGo nowMs canRefresh rest isRetry
              { st with
                db := db'
                processed := p'
                newCount := n'
                updateCount := u'
                noUpdateCount := 0 }
          else
            let no' := st.noUpdateCount + items.length
            if no' ≥ 30 then
              ⟨.ok (n', u'),
                { st with
                  db := db'
                  processed := p'
                  newCount := n'
                  updateCount := u'
                  noUpdateCount := no' }, rest⟩
            else
              Bilibili.syncGo nowMs canRefresh rest isRetry
                { st with
                  db := db'
                  processed := p'
                  newCount := n'
                  updateCount := u'
                  noUpdateCount := no' }) := rfl

/-- A Bilibili sync pass already flagged as a retry never refreshes the
cookie again and never re-invokes `sync` (the guard flag protects both
counters). -/
theorem Bilibili.syncGo_retry_frozen (nowMs : Int) (canRefresh : Bool) :
    ∀ (resps : List Bilibili.Resp) (st : Bilibili.St),
      (Bilibili.syncGo nowMs canRefresh resps true st).st.refreshes
        = st.refreshes ∧
      (Bilibili.syncGo nowMs canRefresh resps true st).st.syncCalls
        = st.syncCalls := by
  intro resps
  induction resps with
  | nil => intro st; exact ⟨rfl, rfl⟩
  | cons r rest ih =>
    intro st
    rw [Bilibili.syncGo_cons]
    by_cases hok : r.ok = false
    · simp only [if_pos hok]
      exact ⟨by trivial, by trivial⟩
    · simp only [if_neg hok]
      by_cases hcode : r.code ≠ 0
      · simp only [if_pos hcode]
        by_cases hauth : Bilibili.isAuthError r.code r.message = true
        · simp only [if_pos hauth]
          split
          · exact ⟨by trivial, by trivial⟩
          · rename_i hcond
            exact absurd (Or.inl trivial) hcond
        · rw [if_neg (by simpa using hauth)]
          exact ⟨by trivial, by trivial⟩
      · simp only [if_neg hcode]
        by_cases hlist : r.list = []
        · simp only [if_pos hlist]
          exact ⟨by trivial, by trivial⟩
        · simp only [if_neg hlist]
          rcases hci : Bilibili.collectItems nowMs r.list st.processed
            with ⟨p2, items⟩
          simp only [hci]
          rcases hbi : Bilibili.batchInsert items
              (st.db, st.newCount, st.updateCount) with ⟨db2, n2, u2⟩
          simp only [hbi]
          by_cases hnew : (n2 > st.newCount ∨ u2 > st.updateCount)
          · simp only [if_pos hnew]
            exact ih _
          · simp only [if_neg hnew]
            by_cases hno : st.noUpdateCount + items.length ≥ 30
            · simp only [if_pos hno]
              exact ⟨by trivial, by trivial⟩
            · simp only [if_neg hno]
              exact ih _

/-- A non-retry Bilibili sync pass refreshes the cookie and re-invokes
`sync` at most once each. -/
theorem Bilibili.syncGo_retry_bound (nowMs : Int) (canRefresh : Bool) :
    ∀ (resps : List Bilibili.Resp) (st : Bilibili.St),
      (Bilibili.syncGo nowMs canRefresh resps false st).st.refreshes
        ≤ st.refreshes + 1 ∧
      (Bilibili.syncGo nowMs canRefresh resps false st).st.syncCalls
        ≤ st.syncCalls + 1 := by
  intro resps
  induction resps with
  | nil => intro st; exact ⟨Nat.le_succ _, Nat.le_succ _⟩
  | cons r rest ih =>
    intro st
    rw [Bilibili.syncGo_cons]
    by_cases hok : r.ok = false
    · simp only [if_pos hok]
      exact ⟨Nat.le_succ _, Nat.le_succ _⟩
    · simp only [if_neg hok]
      by_cases hcode : r.code ≠ 0
      · simp only [if_pos hcode]
        by_cases hauth : Bilibili.isAuthError r.code r.message = true
        · simp only [if_pos hauth]
          split
          · exact ⟨Nat.le_succ _, Nat.le_succ _⟩
          · have hf := Bilibili.syncGo_retry_frozen nowMs canRefresh rest
              { st with
                processed := []
                newCount := 0
                updateCount := 0
                noUpdateCount := 0
                refreshes := st.refreshes + 1
                syncCalls := st.syncCalls + 1
                pagesFetched := st.pagesFetched + 1 }
            exact ⟨le_of_eq hf.1, le_of_eq hf.2⟩
        · rw [if_neg (by simpa using hauth)]
          exact ⟨Nat.le_succ _, Nat.le_succ _⟩
      · simp only [if_neg hcode]
        by_cases hlist : r.list = []
        · simp only [if_pos hlist]
          exact ⟨Nat.le_succ _, Nat.le_succ _⟩
        · simp only [if_neg hlist]
          rcases hci : Bilibili.collectItems nowMs r.list st.processed
            with ⟨p2, items⟩
          simp only [hci]
          rcases hbi : Bilibili.batchInsert items
              (st.db, st.newCount, st.updateCount) with ⟨db2, n2, u2⟩
          simp only [hbi]
          by_cases hnew : (n2 > st.newCount ∨ u2 > st.updateCount)
          · simp only [if_pos hnew]
            exact ih _
          · simp only [if_neg hnew]
            by_cases hno : st.noUpdateCount + items.length ≥ 30
            · simp only [if_pos hno]
              exact ⟨Nat.le_succ _, Nat.le_succ _⟩
            · simp only [if_neg hno]
              exact ih _

/-- `_fetchHistory` issues at most two HTTP requests per call, whatever
the transport returns. -/
theorem Xiaoyuzhou.fetchHistory_attempts (refreshOk : Bool) :
    ∀ (resps : List Xiaoyuzhou.Resp) (isRetry : Bool),
      (Xiaoyuzhou.fetchHistory refreshOk resps isRetry).attempts ≤ 2 := by
  have hretry : ∀ (resps : List Xiaoyuzhou.Resp),
      (Xiaoyuzhou.fetchHistory refreshOk resps true).attempts ≤ 1 := by
    intro resps
    cases resps with
    | nil => simp [Xiaoyuzhou.fetchHistory]
    | cons r rest =>
      simp only [Xiaoyuzhou.fetchHistory]
      split
      · rw [if_neg (by simp)]
      · cases r.data <;> simp
  intro resps isRetry
  cases resps with
  | nil => simp [Xiaoyuzhou.fetchHistory]
  | cons r rest =>
    simp only [Xiaoyuzhou.fetchHistory]
    split
    · split
      · split
        · exact Nat.succ_le_succ (hretry rest)
        · simp
      · simp
    · cases r.data <;> simp

/-- C1.  Auth-refresh-then-retry-once, for both providers.  Bilibili: with
CookieCloud available, an auth-classified API error on a non-retry sync
forces one cookie refresh and re-runs the whole sync once with the retry
flag — a clean second pass succeeds with exactly one refresh and two sync
invocations; an auth error on the retried pass propagates as the fatal
auth throw after exactly two invocations, with the rest of the transport
untouched; over any transport, at most one refresh and two invocations
ever happen.  Podcast app: `_fetchHistory` on a 401/403 refreshes the
token once and re-issues the request once — a clean second response is
returned with one refresh and two attempts; a second 401 is thrown as the
fatal request failure carrying the auth status; no call ever makes a
third attempt. -/
theorem C1_auth_retry_once :
    (∀ (nowMs : Int) (r s : Bilibili.Resp) (rest : List Bilibili.Resp)
      (db : List (Store.HRow Nat)),
      r.ok = true → r.code ≠ 0 → Bilibili.isAuthError r.code r.message = true →
      s.ok = true → s.code = 0 → s.list = [] →
      (Bilibili.sync nowMs true (r :: s :: rest) db).outcome = .ok (0, 0) ∧
      (Bilibili.sync nowMs true (r :: s :: rest) db).st.refreshes = 1 ∧
      (Bilibili.sync nowMs true (r :: s :: rest) db).st.syncCalls = 2 ∧
      (Bilibili.sync nowMs true (r :: s :: rest) db).remaining = rest) ∧
    (∀ (nowMs : Int) (r s : Bilibili.Resp) (rest : List Bilibili.Resp)
      (db : List (Store.HRow Nat)),
      r.ok = true → r.code ≠ 0 → Bilibili.isAuthError r.code r.message = true →
      s.ok = true → s.code ≠ 0 → Bilibili.isAuthError s.code s.message = true →
      (Bilibili.sync nowMs true (r :: s :: rest) db).outcome
        = .error (.authError (jsStrOr s.message "Bilibili: 获取历史记录失败")) ∧
      (Bilibili.sync nowMs true (r :: s :: rest) db).st.refreshes = 1 ∧
      (Bilibili.sync nowMs true (r :: s :: rest) db).st.syncCalls = 2 ∧
      (Bilibili.sync nowMs true (r :: s :: rest) db).remaining = rest) ∧
    (∀ (nowMs : Int) (canRefresh : Bool) (resps : List Bilibili.Resp)
      (db : List (Store.HRow Nat)),
      (Bilibili.sync nowMs canRefresh resps db).st.refreshes ≤ 1 ∧
      (Bilibili.sync nowMs canRefresh resps db).st.syncCalls ≤ 2) ∧
    (∀ (r s : Xiaoyuzhou.Resp) (rest : List Xiaoyuzhou.Resp)
      (d : List Xiaoyuzhou.Raw),
      r.ok = false → (r.status = 401 ∨ r.status = 403) →
      s.ok = true → s.data = some d →
      Xiaoyuzhou.fetchHistory true (r :: s :: rest) false
        = ⟨.ok (d, jsTruthyStr s.loadMoreKey), 1, 2, rest⟩) ∧
    (∀ (r s : Xiaoyuzhou.Resp) (rest : List Xiaoyuzhou.Resp),
      r.ok = false → (r.status = 401 ∨ r.status = 403) →
      s.ok = false → s.status = 401 →
      Xiaoyuzhou.fetchHistory true (r :: s :: rest) false
        = ⟨.error (.requestFailed 401), 1, 2, rest⟩) ∧
    (∀ (refreshOk : Bool) (resps : List Xiaoyuzhou.Resp) (isRetry : Bool),
      (Xiaoyuzhou.fetchHistory refreshOk resps isRetry).attempts ≤ 2) := by
  refine ⟨?_, ?_, ?_, ?_, ?_, Xiaoyuzhou.fetchHistory_attempts⟩
  · intro nowMs r s rest db hrok hrcode hrauth hsok hscode hslist
    simp only [Bilibili.sync]
    rw [Bilibili.syncGo_cons]
    rw [if_neg (show ¬(r.ok = false) by simp [hrok])]
    rw [if_pos hrcode, if_pos hrauth]
    rw [if_neg (show ¬(((false : Bool) : Prop) ∨ ¬((true : Bool) : Prop))
      by simp)]
    rw [Bilibili.syncGo_cons]
    rw [if_neg (show ¬(s.ok = false) by simp [hsok])]
    rw [if_neg (show ¬(s.code ≠ 0) by simp [hscode])]
    rw [if_pos hslist]
    exact ⟨rfl, rfl, rfl, rfl⟩
  · intro nowMs r s rest db hrok hrcode hrauth hsok hscode hsauth
    simp only [Bilibili.sync]
    rw [Bilibili.syncGo_cons]
    rw [if_neg (show ¬(r.ok = false) by simp [hrok])]
    rw [if_pos hrcode, if_pos hrauth]
    rw [if_neg (show ¬(((false : Bool) : Prop) ∨ ¬((true : Bool) : Prop))
      by simp)]
    rw [Bilibili.syncGo_cons]
    rw [if_neg (show ¬(s.ok = false) by simp [hsok])]
    rw [if_pos hscode, if_pos hsauth]
    rw [if_pos (show ((true : Bool) : Prop) ∨ ¬((true : Bool) : Prop)
      from Or.inl rfl)]
    exact ⟨rfl, rfl, rfl, rfl⟩
  · intro nowMs canRefresh resps db
    have h := Bilibili.syncGo_retry_bound nowMs canRefresh resps
      ⟨db, [], 0, 0, 0, 0, 1, 0⟩
    exact ⟨h.1, h.2⟩
  · intro r s rest d hrok hrstatus hsok hsdata
    simp [Xiaoyuzhou.fetchHistory, hrok, hrstatus, hsok, hsdata]
  · intro r s rest hrok hrstatus hsok hsstatus
    simp [Xiaoyuzhou.fetchHistory, hrok, hrstatus, hsok, hsstatus]

/-- Concrete transport scripts for the C1 witness. -/
def c1AuthResp : Bilibili.Resp := ⟨true, -101, some "账号未登录", []⟩

def c1OkResp : Bilibili.Resp := ⟨true, 0, none, []⟩

def c1AuthResp2 : Bilibili.Resp := ⟨true, -6, some "请先登录", []⟩

def c1XAuthResp : Xiaoyuzhou.Resp := ⟨false, 401, none, none⟩

def c1XOkResp : Xiaoyuzhou.Resp := ⟨true, 200, some [], none⟩

/-- C1, witness: the auth-error-then-success and double-auth-error
scripts, instantiated concretely for both providers. -/
theorem C1_auth_retry_once_witness :
    ((Bilibili.sync 0 true [c1AuthResp, c1OkResp] []).outcome = .ok (0, 0) ∧
      (Bilibili.sync 0 true [c1AuthResp, c1OkResp] []).st.refreshes = 1 ∧
      (Bilibili.sync 0 true [c1AuthResp, c1OkResp] []).st.syncCalls = 2 ∧
      (Bilibili.sync 0 true [c1AuthResp, c1OkResp] []).remaining = []) ∧
    ((Bilibili.sync 0 true [c1AuthResp, c1AuthResp2] []).outcome
        = .error (.authError (jsStrOr (some "请先登录")
          "Bilibili: 获取历史记录失败")) ∧
      (Bilibili.sync 0 true [c1AuthResp, c1AuthResp2] []).st.refreshes = 1 ∧
      (Bilibili.sync 0 true [c1AuthResp, c1AuthResp2] []).st.syncCalls = 2 ∧
      (Bilibili.sync 0 true [c1AuthResp, c1AuthResp2] []).remaining = []) ∧
    ((Bilibili.sync 0 true [] []).st.refreshes ≤ 1 ∧
      (Bilibili.sync 0 true [] []).st.syncCalls ≤ 2) ∧
    Xiaoyuzhou.fetchHistory true [c1XAuthResp, c1XOkResp] false
      = ⟨.ok ([], jsTruthyStr (none : Option String)), 1, 2, []⟩ ∧
    Xiaoyuzhou.fetchHistory true [c1XAuthResp, c1XAuthResp] false
      = ⟨.error (.requestFailed 401), 1, 2, []⟩ ∧
    (Xiaoyuzhou.fetchHistory true [] false).attempts ≤ 2 :=
  ⟨C1_auth_retry_once.1 0 c1AuthResp c1OkResp [] [] rfl (by decide)
      (by decide) rfl rfl rfl,
    C1_auth_retry_once.2.1 0 c1AuthResp c1AuthResp2 [] [] rfl (by decide)
      (by decide) rfl (by decide) (by decide),
    C1_auth_retry_once.2.2.1 0 true [] [],
    C1_auth_retry_once.2.2.2.1 c1XAuthResp c1XOkResp [] [] rfl
      (Or.inl rfl) rfl rfl,
    C1_auth_retry_once.2.2.2.2.1 c1XAuthResp c1XAuthResp [] rfl
      (Or.inl rfl) rfl rfl,
    C1_auth_retry_once.2.2.2.2.2 true [] false⟩

/-- The in-page collection loop on records whose ids are fresh (not yet
processed this run) and pairwise distinct: every record is kept, in
order. -/
theorem Bilibili.collectItems_all_new (nowMs : Int) :
    ∀ (raws : List Bilibili.Raw) (processed : List Nat),
      (∀ raw ∈ raws, raw.oid ∉ processed) →
      (raws.map (fun raw => raw.oid)).Nodup →
      Bilibili.collectItems nowMs raws processed
        = (processed ++ raws.map (fun raw => raw.oid),
          raws.map (Bilibili.normalizeItem nowMs)) := by
  intro raws
  induction raws with
  | nil => intro processed _ _; simp [Bilibili.collectItems]
  | cons raw rs ih =>
    intro processed h1 h2
    simp only [Bilibili.collectItems]
    rw [if_neg (h1 raw (List.mem_cons_self _ _))]
    have hoid : raw.oid ∉ rs.map (fun raw => raw.oid) := by
      simpa using (List.nodup_cons.mp h2).1
    have hrec := ih (processed ++ [raw.oid])
      (fun x hx hmem => by
        rcases List.mem_append.mp hmem with hm | hm
        · exact h1 x (List.mem_cons_of_mem _ hx) hm
        · simp only [List.mem_singleton] at hm
          exact hoid (hm ▸ List.mem_map_of_mem _ hx))
      ((List.nodup_cons.mp h2).2)
    rw [hrec]
    simp

/-- The `batchInsert` transaction is a no-op on a batch whose every item
already exists with an unchanged `view_time`. -/
theorem Bilibili.batchInsert_noop :
    ∀ (items : List (Store.HRow Nat)) (db : List (Store.HRow Nat)) (n u : Nat),
      (∀ it ∈ items, ∃ row, Store.getById db it.id "bilibili" = some row ∧
        row.viewTime = it.viewTime) →
      Bilibili.batchInsert items (db, n, u) = (db, n, u) := by
  intro items
  induction items with
  | nil => intro db n u _; rfl
  | cons it its ih =>
    intro db n u h
    obtain ⟨row, hrow, hvt⟩ := h it (List.mem_cons_self _ _)
    simp only [Bilibili.batchInsert, hrow]
    rw [if_neg (by simp [hvt])]
    exact ih db n u (fun x hx => h x (List.mem_cons_of_mem _ hx))

/-- A stored Bilibili row for the C2 scripts. -/
def c2Row (i : Nat) : Store.HRow Nat :=
  ⟨i, "bilibili", "archive", "", 0, "", "", "", 100, "", "", 0, 0⟩

/-- The C2 store: ids 0–29 present with `view_time = 100`. -/
def c2Db : List (Store.HRow Nat) := (List.range 30).map c2Row

/-- A fetched Bilibili record with `view_at = 100` (a no-op against
`c2Db` for ids 0–29, new otherwise). -/
def c2Raw (i : Nat) : Bilibili.Raw :=
  ⟨i, "archive", "", 0, "", "", none, none, 100, none, none, none⟩

/-- C2 counterexample transport: one page of 30 no-op records followed by
one new record, then an empty page. -/
def c2Resps : List Bilibili.Resp :=
  [⟨true, 0, none, (List.range 30).map c2Raw ++ [c2Raw 30]⟩,
    ⟨true, 0, none, []⟩]

/-- C2, counterexample.  The duplicate counter is page-granular: a page
whose first 30 records are all fetched-but-not-new-or-updated but whose
last record is new resets the counter, so the run fetches a second page —
the claim's "halts without fetching further pages after 30 consecutive
no-op records" fails. -/
theorem C2_counterexample :
    (∀ raw ∈ (List.range 30).map c2Raw,
      ∃ row, Store.getById c2Db raw.oid "bilibili" = some row ∧
        row.viewTime = raw.view_at) ∧
    (Bilibili.sync 0 true c2Resps c2Db).st.pagesFetched = 2 ∧
    (Bilibili.sync 0 true c2Resps c2Db).outcome = .ok (1, 0) := by
  refine ⟨by decide, by decide, by decide⟩

/-- C2, amended.  The 30-record duplicate threshold is page-granular: a
fetched page that produces no insert and no update adds its
(deduplicated) record count to a consecutive counter and the run halts
once the counter reaches 30 — in particular a full page of ≥ 30 no-op
records ends the run with no further page fetched — while a page
producing any insert or update resets the counter to zero; hence 29 no-op
records followed by a new record keep the run paging (concretely, a
29-no-op page, a page with one new record and an empty page are all three
fetched and the final counter is zero). -/
theorem C2_amended :
    (∀ (nowMs : Int) (canRefresh : Bool) (r : Bilibili.Resp)
      (rest : List Bilibili.Resp) (db : List (Store.HRow Nat)),
      r.ok = true → r.code = 0 → r.list ≠ [] →
      (r.list.map (fun raw => raw.oid)).Nodup →
      (∀ raw ∈ r.list, ∃ row, Store.getById db raw.oid "bilibili" = some row ∧
        row.viewTime = raw.view_at) →
      r.list.length ≥ 30 →
      (Bilibili.sync nowMs canRefresh (r :: rest) db).outcome = .ok (0, 0) ∧
      (Bilibili.sync nowMs canRefresh (r :: rest) db).st.pagesFetched = 1 ∧
      (Bilibili.sync nowMs canRefresh (r :: rest) db).remaining = rest ∧
      (Bilibili.sync nowMs canRefresh (r :: rest) db).st.db = db) ∧
    ((Bilibili.sync 0 true
        [⟨true, 0, none, (List.range 29).map c2Raw⟩,
          ⟨true, 0, none, [c2Raw 100]⟩, ⟨true, 0, none, []⟩]
        c2Db).st.pagesFetched = 3 ∧
      (Bilibili.sync 0 true
        [⟨true, 0, none, (List.range 29).map c2Raw⟩,
          ⟨true, 0, none, [c2Raw 100]⟩, ⟨true, 0, none, []⟩]
        c2Db).outcome = .ok (1, 0) ∧
      (Bilibili.sync 0 true
        [⟨true, 0, none, (List.range 29).map c2Raw⟩,
          ⟨true, 0, none, [c2Raw 100]⟩, ⟨true, 0, none, []⟩]
        c2Db).st.noUpdateCount = 0) := by
  constructor
  · intro nowMs canRefresh r rest db hok hcode hlist hnodup hnoop hlen
    simp only [Bilibili.sync]
    rw [Bilibili.syncGo_cons]
    rw [if_neg (show ¬(r.ok = false) by simp [hok])]
    rw [if_neg (show ¬(r.code ≠ 0) by simp [hcode])]
    rw [if_neg hlist]
    rw [Bilibili.collectItems_all_new nowMs r.list [] (by simp) hnodup]
    dsimp only
    rw [Bilibili.batchInsert_noop (r.list.map (Bilibili.normalizeItem nowMs))
      db 0 0 (fun it hit => by
        obtain ⟨raw, hraw, hitq⟩ := List.mem_map.mp hit
        obtain ⟨row, h1, h2⟩ := hnoop raw hraw
        exact ⟨row, by rw [← hitq]; exact h1, by rw [← hitq]; exact h2⟩)]
    rw [if_neg (show ¬((0 : Nat) > 0 ∨ (0 : Nat) > 0) by simp)]
    rw [if_pos (show 0 + (r.list.map (Bilibili.normalizeItem nowMs)).length
      ≥ 30 by simpa using hlen)]
    exact ⟨rfl, rfl, rfl, rfl⟩
  · refine ⟨by decide, by decide, by decide⟩

/-- C2, witness for the amended theorem: the single 30-no-op page script
halts after one page with an unchanged store. -/
theorem C2_amended_witness :
    (Bilibili.sync 0 true [⟨true, 0, none, (List.range 30).map c2Raw⟩]
      c2Db).outcome = .ok (0, 0) ∧
    (Bilibili.sync 0 true [⟨true, 0, none, (List.range 30).map c2Raw⟩]
      c2Db).st.pagesFetched = 1 ∧
    (Bilibili.sync 0 true [⟨true, 0, none, (List.range 30).map c2Raw⟩]
      c2Db).remaining = [] ∧
    (Bilibili.sync 0 true [⟨true, 0, none, (List.range 30).map c2Raw⟩]
      c2Db).st.db = c2Db :=
  C2_amended.1 0 true ⟨true, 0, none, (List.range 30).map c2Raw⟩ [] c2Db
    rfl rfl (by decide) (by decide) (by decide) (by decide)

/-- A lookup that misses `db` and does not match the appended row misses
`db ++ [row]` too. -/
theorem Store.getById_append_none {α : Type} [DecidableEq α] :
    ∀ (db : List (Store.HRow α)) (row : Store.HRow α) (id : α) (p : String),
      Store.getById db id p = none → ¬(row.id = id ∧ row.platform = p) →
      Store.getById (db ++ [row]) id p = none := by
  intro db row id p h1 h2
  induction db with
  | nil =>
    simp only [List.nil_append, Store.getById]
    rw [if_neg h2]
  | cons r rs ih =>
    by_cases hp : (r.id = id ∧ r.platform = p)
    · rw [Store.getById, if_pos hp] at h1
      cases h1
    · rw [Store.getById, if_neg hp] at h1
      rw [List.cons_append, Store.getById, if_neg hp]
      exact ih h1

/-- Folding `INSERT OR IGNORE` over a batch of fresh rows with pairwise
distinct keys appends the batch in order. -/
theorem Store.foldl_insertOrIgnore_all_new {α : Type} [DecidableEq α] :
    ∀ (items db : List (Store.HRow α)),
      (items.map (fun it => (it.id, it.platform))).Nodup →
      (∀ it ∈ items, Store.getById db it.id it.platform = none) →
      items.foldl Store.insertOrIgnore db = db ++ items := by
  intro items
  induction items with
  | nil => intro db _ _; simp
  | cons it its ih =>
    intro db hnodup hnew
    have h0 := hnew it (List.mem_cons_self _ _)
    have hstep : Store.insertOrIgnore db it = db ++ [it] := by
      unfold Store.insertOrIgnore
      rw [h0]
    have hkey : (it.id, it.platform) ∉
        its.map (fun x => (x.id, x.platform)) :=
      (List.nodup_cons.mp hnodup).1
    have hrest : ∀ x ∈ its,
        Store.getById (db ++ [it]) x.id x.platform = none := by
      intro x hx
      refine Store.getById_append_none db it x.id x.platform
        (hnew x (List.mem_cons_of_mem _ hx)) ?_
      rintro ⟨h1, h2⟩
      exact hkey (by
        rw [show ((it.id, it.platform) : α × String) = (x.id, x.platform) from
          by rw [h1, h2]]
        exact List.mem_map_of_mem _ hx)
    calc (it :: its).foldl Store.insertOrIgnore db
        = its.foldl Store.insertOrIgnore (db ++ [it]) := by
          simp [hstep]
      _ = (db ++ [it]) ++ its := ih (db ++ [it])
          ((List.nodup_cons.mp hnodup).2) hrest
      _ = db ++ it :: its := by simp

/-- A truthy possibly-absent string is `some` of its `|| ""` reading. -/
theorem jsTruthyStr_eq_some (a : Option String) (h : jsTruthyStr a ≠ none) :
    jsTruthyStr a = some (jsStrOr a "") := by
  cases a with
  | none => exact absurd rfl h
  | some s =>
    by_cases hs : s = ""
    · exact absurd (by simp [jsTruthyStr, hs]) h
    · simp [jsTruthyStr, jsStrOr, hs]

/-- A batch of raw podcast items all carrying a truthy `eid` that misses
the store. -/
def Xiaoyuzhou.allNewRaw (db : List (Store.HRow String))
    (raws : List Xiaoyuzhou.Raw) : Prop :=
  ∀ raw ∈ raws, jsTruthyStr raw.eid ≠ none ∧
    Store.getById db (jsStrOr raw.eid "") "xiaoyuzhou" = none

instance (db : List (Store.HRow String)) (raws : List Xiaoyuzhou.Raw) :
    Decidable (Xiaoyuzhou.allNewRaw db raws) := by
  unfold Xiaoyuzhou.allNewRaw
  infer_instance

/-- The page loop keeps every record of an all-new batch, in order,
without stopping. -/
theorem Xiaoyuzhou.processItems_all_new (nowMs ct : Int) (isFirst : Bool)
    (db : List (Store.HRow String)) :
    ∀ (raws : List Xiaoyuzhou.Raw) (fe : Option String) (sk : Nat)
      (acc : List (Store.HRow String)),
      Xiaoyuzhou.allNewRaw db raws →
      ∃ fe', Xiaoyuzhou.processItems nowMs ct isFirst db raws fe sk acc
        = (acc ++ raws.map (Xiaoyuzhou.normalizeItem nowMs ct), sk, fe',
          false) := by
  intro raws
  induction raws with
  | nil => intro fe sk acc _; exact ⟨fe, by simp [Xiaoyuzhou.processItems]⟩
  | cons raw rs ih =>
    intro fe sk acc h
    obtain ⟨hne, hnew⟩ := h raw (List.mem_cons_self _ _)
    have heid := jsTruthyStr_eq_some raw.eid hne
    obtain ⟨fe2, hrec⟩ := ih
      (if fe = none then some (jsStrOr raw.eid "") else fe) sk
      (acc ++ [Xiaoyuzhou.normalizeItem nowMs ct raw])
      (fun x hx => h x (List.mem_cons_of_mem _ hx))
    refine ⟨fe2, ?_⟩
    simp only [Xiaoyuzhou.processItems, heid, hnew]
    rw [hrec]
    simp

/-- The page loop on an incremental run over a batch whose prefix is
all-new and whose next record already exists: the prefix is kept and the
loop stops there. -/
theorem Xiaoyuzhou.processItems_stop (nowMs ct : Int)
    (db : List (Store.HRow String)) :
    ∀ (pre : List Xiaoyuzhou.Raw) (e0 : Xiaoyuzhou.Raw)
      (post : List Xiaoyuzhou.Raw) (fe : Option String) (sk : Nat)
      (acc : List (Store.HRow String)),
      Xiaoyuzhou.allNewRaw db pre →
      jsTruthyStr e0.eid ≠ none →
      (Store.getById db (jsStrOr e0.eid "") "xiaoyuzhou").isSome →
      ∃ fe', Xiaoyuzhou.processItems nowMs ct false db (pre ++ e0 :: post)
          fe sk acc
        = (acc ++ pre.map (Xiaoyuzhou.normalizeItem nowMs ct), sk, fe',
          true) := by
  intro pre
  induction pre with
  | nil =>
    intro e0 post fe sk acc _ hne hsome
    have heid := jsTruthyStr_eq_some e0.eid hne
    obtain ⟨row, hrow⟩ := Option.isSome_iff_exists.mp hsome
    refine ⟨if fe = none then some (jsStrOr e0.eid "") else fe, ?_⟩
    simp only [List.nil_append, Xiaoyuzhou.processItems, heid, hrow]
    rw [if_pos (by simp)]
    simp
  | cons p ps ih =>
    intro e0 post fe sk acc h hne hsome
    obtain ⟨hpne, hpnew⟩ := h p (List.mem_cons_self _ _)
    have hpeid := jsTruthyStr_eq_some p.eid hpne
    obtain ⟨fe2, hrec⟩ := ih e0 post
      (if fe = none then some (jsStrOr p.eid "") else fe) sk
      (acc ++ [Xiaoyuzhou.normalizeItem nowMs ct p])
      (fun x hx => h x (List.mem_cons_of_mem _ hx)) hne hsome
    refine ⟨fe2, ?_⟩
    simp only [List.cons_append, Xiaoyuzhou.processItems, hpeid, hpnew,
      List.append_eq]
    rw [hrec]
    simp

/-- On a first sync the page loop never raises the stop flag: an existing
id is merely counted as skipped. -/
theorem Xiaoyuzhou.processItems_first_no_stop (nowMs ct : Int)
    (db : List (Store.HRow String)) :
    ∀ (raws : List Xiaoyuzhou.Raw) (fe : Option String) (sk : Nat)
      (acc : List (Store.HRow String)),
      (Xiaoyuzhou.processItems nowMs ct true db raws fe sk acc).2.2.2
        = false := by
  intro raws
  induction raws with
  | nil => intro fe sk acc; rfl
  | cons raw rs ih =>
    intro fe sk acc
    simp only [Xiaoyuzhou.processItems]
    cases hid : jsTruthyStr raw.eid with
    | none =>
      simp only [hid]
      exact ih fe sk acc
    | some e =>
      simp only [hid]
      cases hg : Store.getById db e "xiaoyuzhou" with
      | some ex =>
        simp only [hg]
        rw [if_neg (by simp)]
        exact ih _ _ _
      | none =>
        simp only [hg]
        exact ih _ _ _

/-- C3.  Podcast-app incremental sync (persisted `lastSyncTime ≠ 0`):
when page 1 is entirely new and page 2 holds an already-stored id (after
an all-new prefix), the run inserts all of page 1, inserts exactly the
records of page 2 preceding the existing id, stops there, and issues no
request for any later page — exactly 2 requests, with the remainder of
the transport script untouched. -/
theorem C3_incremental_stop :
    ∀ (nowMs : Int) (refreshOk : Bool) (maxPages : Nat) (lastSyncTime : Int)
      (prevEid : Option String) (R1 R2 : Xiaoyuzhou.Resp)
      (rest : List Xiaoyuzhou.Resp) (db : List (Store.HRow String))
      (d1 pre post : List Xiaoyuzhou.Raw) (e0 : Xiaoyuzhou.Raw),
      lastSyncTime ≠ 0 →
      R1.ok = true → R1.data = some d1 → d1 ≠ [] →
      jsTruthyStr R1.loadMoreKey ≠ none →
      Xiaoyuzhou.allNewRaw db d1 →
      (d1.map (fun raw => jsStrOr raw.eid "")).Nodup →
      R2.ok = true → R2.data = some (pre ++ e0 :: post) →
      Xiaoyuzhou.allNewRaw
        (db ++ d1.map (Xiaoyuzhou.normalizeItem nowMs (Int.fdiv nowMs 1000)))
        pre →
      (pre.map (fun raw => jsStrOr raw.eid "")).Nodup →
      jsTruthyStr e0.eid ≠ none →
      (Store.getById
        (db ++ d1.map (Xiaoyuzhou.normalizeItem nowMs (Int.fdiv nowMs 1000)))
        (jsStrOr e0.eid "") "xiaoyuzhou").isSome →
      (Xiaoyuzhou.sync nowMs refreshOk maxPages lastSyncTime prevEid
        (R1 :: R2 :: rest) db).st.fetches = 2 ∧
      (Xiaoyuzhou.sync nowMs refreshOk maxPages lastSyncTime prevEid
        (R1 :: R2 :: rest) db).remaining = rest ∧
      (Xiaoyuzhou.sync nowMs refreshOk maxPages lastSyncTime prevEid
        (R1 :: R2 :: rest) db).outcome
        = .ok (d1.length + pre.length, 0) ∧
      (Xiaoyuzhou.sync nowMs refreshOk maxPages lastSyncTime prevEid
        (R1 :: R2 :: rest) db).st.db
        = db ++ d1.map (Xiaoyuzhou.normalizeItem nowMs (Int.fdiv nowMs 1000))
          ++ pre.map (Xiaoyuzhou.normalizeItem nowMs (Int.fdiv nowMs 1000)) := by
  intro nowMs refreshOk maxPages lastSyncTime prevEid R1 R2 rest db d1 pre
    post e0 hlst hok1 hd1 hd1ne hkey1 hnew1 hn1 hok2 hd2 hnew2 hn2 hene hesome
  have hfirstv : (decide (lastSyncTime = 0)) = false := decide_eq_false hlst
  have hf1 : Xiaoyuzhou.fetchHistory refreshOk (R1 :: R2 :: rest) false
      = ⟨.ok (d1, jsTruthyStr R1.loadMoreKey), 0, 1, R2 :: rest⟩ := by
    simp [Xiaoyuzhou.fetchHistory, hok1, hd1]
  have hf2 : Xiaoyuzhou.fetchHistory refreshOk (R2 :: rest) false
      = ⟨.ok (pre ++ e0 :: post, jsTruthyStr R2.loadMoreKey), 0, 1, rest⟩ := by
    simp [Xiaoyuzhou.fetchHistory, hok2, hd2]
  obtain ⟨fe1, hp1⟩ := Xiaoyuzhou.processItems_all_new nowMs
    (Int.fdiv nowMs 1000) false db d1 none 0 [] hnew1
  have hkeys1 : ((d1.map (Xiaoyuzhou.normalizeItem nowMs
      (Int.fdiv nowMs 1000))).map (fun it => (it.id, it.platform))).Nodup := by
    have hEq : (d1.map (Xiaoyuzhou.normalizeItem nowMs
        (Int.fdiv nowMs 1000))).map (fun it => (it.id, it.platform))
        = (d1.map (fun raw => jsStrOr raw.eid "")).map
          (fun i => (i, ("xiaoyuzhou" : String))) := by
      simp only [List.map_map]
      rfl
    rw [hEq]
    exact hn1.map (fun a b h => congrArg Prod.fst h)
  have hnotin1 : ∀ it ∈ d1.map (Xiaoyuzhou.normalizeItem nowMs
      (Int.fdiv nowMs 1000)), Store.getById db it.id it.platform = none := by
    intro it hit
    obtain ⟨raw, hraw, hq⟩ := List.mem_map.mp hit
    subst hq
    exact (hnew1 raw hraw).2
  have hfold1 : (d1.map (Xiaoyuzhou.normalizeItem nowMs
      (Int.fdiv nowMs 1000))).foldl Store.insertOrIgnore db
      = db ++ d1.map (Xiaoyuzhou.normalizeItem nowMs (Int.fdiv nowMs 1000)) :=
    Store.foldl_insertOrIgnore_all_new _ db hkeys1 hnotin1
  obtain ⟨fe2, hp2⟩ := Xiaoyuzhou.processItems_stop nowMs
    (Int.fdiv nowMs 1000)
    (db ++ d1.map (Xiaoyuzhou.normalizeItem nowMs (Int.fdiv nowMs 1000)))
    pre e0 post fe1 0 [] hnew2 hene hesome
  have hkeys2 : ((pre.map (Xiaoyuzhou.normalizeItem nowMs
      (Int.fdiv nowMs 1000))).map (fun it => (it.id, it.platform))).Nodup := by
    have hEq : (pre.map (Xiaoyuzhou.normalizeItem nowMs
        (Int.fdiv nowMs 1000))).map (fun it => (it.id, it.platform))
        = (pre.map (fun raw => jsStrOr raw.eid "")).map
          (fun i => (i, ("xiaoyuzhou" : String))) := by
      simp only [List.map_map]
      rfl
    rw [hEq]
    exact hn2.map (fun a b h => congrArg Prod.fst h)
  have hnotin2 : ∀ it ∈ pre.map (Xiaoyuzhou.normalizeItem nowMs
      (Int.fdiv nowMs 1000)),
      Store.getById (db ++ d1.map (Xiaoyuzhou.normalizeItem nowMs
        (Int.fdiv nowMs 1000))) it.id it.platform = none := by
    intro it hit
    obtain ⟨raw, hraw, hq⟩ := List.mem_map.mp hit
    subst hq
    exact (hnew2 raw hraw).2
  have hfold2 : (pre.map (Xiaoyuzhou.normalizeItem nowMs
      (Int.fdiv nowMs 1000))).foldl Store.insertOrIgnore
      (db ++ d1.map (Xiaoyuzhou.normalizeItem nowMs (Int.fdiv nowMs 1000)))
      = db ++ d1.map (Xiaoyuzhou.normalizeItem nowMs (Int.fdiv nowMs 1000))
        ++ pre.map (Xiaoyuzhou.normalizeItem nowMs (Int.fdiv nowMs 1000)) :=
    Store.foldl_insertOrIgnore_all_new _ _ hkeys2 hnotin2
  simp only [Xiaoyuzhou.sync, List.length_cons, hfirstv]
  rw [Xiaoyuzhou.syncGo_succ]
  rw [if_neg (by simp)]
  dsimp only
  rw [hf1]
  dsimp only
  rw [if_neg hd1ne]
  rw [hp1]
  dsimp only
  simp only [List.nil_append]
  rw [hfold1]
  rw [if_neg (by simp)]
  rw [if_neg hkey1]
  rw [Xiaoyuzhou.syncGo_succ]
  rw [if_neg (by simp)]
  dsimp only
  rw [hf2]
  dsimp only
  rw [if_neg (by simp)]
  rw [hp2]
  dsimp only
  simp only [List.nil_append]
  rw [if_pos trivial]
  rw [hfold2]
  refine ⟨rfl, rfl, ?_, rfl⟩
  simp

/-- Page-1 item of the C3 scenario (new episode `a`). -/
def c3RawA : Xiaoyuzhou.Raw :=
  ⟨some "a", some "pA", some 100, some "Episode A", some "Pod", some "Auth",
    some "https://img/a", none, 0⟩

/-- Page-2 leading item of the C3 scenario (new episode `b`). -/
def c3RawB : Xiaoyuzhou.Raw :=
  ⟨some "b", some "pB", some 200, some "Episode B", some "Pod", some "Auth",
    none, some "https://img/pod", 0⟩

/-- Page-2 item already present in the store (episode `e1`). -/
def c3RawE : Xiaoyuzhou.Raw :=
  ⟨some "e1", some "pE", some 300, some "Episode E", some "Pod", some "Auth",
    none, none, 0⟩

/-- The pre-existing store row for episode `e1`, inserted by an earlier run. -/
def c3RowE : Store.HRow String :=
  Xiaoyuzhou.normalizeItem 1699000000000 1699000000 c3RawE

/-- Transport script for C3: page 1 all new with a cursor, page 2 hits the
known episode, page 3 would fail if ever requested. -/
def c3R1 : Xiaoyuzhou.Resp := ⟨true, 200, some [c3RawA], some "k1"⟩

/-- Second page of the C3 script. -/
def c3R2 : Xiaoyuzhou.Resp := ⟨true, 200, some [c3RawB, c3RawE], some "k2"⟩

/-- Third page of the C3 script — a transport error, proving it is never
requested. -/
def c3R3 : Xiaoyuzhou.Resp := ⟨false, 500, none, none⟩

/-- Witness for C3 at a concrete incremental run. -/
theorem C3_incremental_stop_witness :
    (Xiaoyuzhou.sync 1700000000000 true 20 5 none (c3R1 :: c3R2 :: [c3R3])
      [c3RowE]).st.fetches = 2 ∧
    (Xiaoyuzhou.sync 1700000000000 true 20 5 none (c3R1 :: c3R2 :: [c3R3])
      [c3RowE]).remaining = [c3R3] ∧
    (Xiaoyuzhou.sync 1700000000000 true 20 5 none (c3R1 :: c3R2 :: [c3R3])
      [c3RowE]).outcome = .ok (2, 0) ∧
    (Xiaoyuzhou.sync 1700000000000 true 20 5 none (c3R1 :: c3R2 :: [c3R3])
      [c3RowE]).st.db
      = [c3RowE,
          Xiaoyuzhou.normalizeItem 1700000000000 1700000000 c3RawA,
          Xiaoyuzhou.normalizeItem 1700000000000 1700000000 c3RawB] :=
  C3_incremental_stop 1700000000000 true 20 5 none c3R1 c3R2 [c3R3]
    [c3RowE] [c3RawA] [c3RawB] [] c3RawE (by decide) rfl rfl (by decide)
    (by decide) (by decide) (by decide) rfl rfl (by decide) (by decide)
    (by decide) (by decide)

/-- On a first sync, over any transport whose pages are all well-formed,
non-empty and cursored, the paging loop performs exactly `m` further
fetches when `m` pages remain under the cap, then breaks with a success
outcome, leaving the rest of the script untouched. -/
theorem Xiaoyuzhou.syncGo_first_cap (nowMs : Int) (refreshOk : Bool)
    (maxPages : Nat) (prevLastEid : Option String) :
    ∀ (m fuel : Nat) (resps : List Xiaoyuzhou.Resp) (pageCount : Nat)
      (st : Xiaoyuzhou.St),
      pageCount + m = maxPages →
      m < fuel →
      m ≤ resps.length →
      (∀ resp ∈ resps, resp.ok = true ∧ resp.data ≠ none ∧
        resp.data ≠ some [] ∧ jsTruthyStr resp.loadMoreKey ≠ none) →
      (Xiaoyuzhou.syncGo nowMs refreshOk true maxPages prevLastEid fuel
        resps pageCount st).st.fetches = st.fetches + m ∧
      (Xiaoyuzhou.syncGo nowMs refreshOk true maxPages prevLastEid fuel
        resps pageCount st).remaining = resps.drop m ∧
      ∃ p, (Xiaoyuzhou.syncGo nowMs refreshOk true maxPages prevLastEid fuel
        resps pageCount st).outcome = Except.ok p := by
  intro m
  induction m with
  | zero =>
    intro fuel resps pageCount st hpc hfuel _ _
    cases fuel with
    | zero => omega
    | succ f =>
      rw [Xiaoyuzhou.syncGo_succ]
      rw [if_pos ⟨rfl, by omega⟩]
      exact ⟨by simp, by simp, ⟨(st.newCount, 0), rfl⟩⟩
  | succ k ih =>
    intro fuel resps pageCount st hpc hfuel hlen hclean
    cases fuel with
    | zero => omega
    | succ f =>
      cases resps with
      | nil => simp at hlen
      | cons a l =>
        obtain ⟨hok, hdne, hdnee, hkey⟩ := hclean a (by simp)
        cases hdata : a.data with
        | none => exact absurd hdata hdne
        | some d =>
          have hdne2 : d ≠ [] := by
            intro h
            apply hdnee
            rw [hdata, h]
          have hf : Xiaoyuzhou.fetchHistory refreshOk (a :: l) false
              = ⟨.ok (d, jsTruthyStr a.loadMoreKey), 0, 1, l⟩ := by
            simp [Xiaoyuzhou.fetchHistory, hok, hdata]
          rw [Xiaoyuzhou.syncGo_succ]
          rw [if_neg (fun h => absurd h.2 (by omega))]
          dsimp only
          rw [hf]
          dsimp only
          rw [if_neg hdne2]
          rcases hP : Xiaoyuzhou.processItems nowMs (Int.fdiv nowMs 1000)
            true st.db d st.firstEid st.skippedCount []
            with ⟨ni, sk2, fe2, stop2⟩
          have hst : stop2 = false := by
            have h2 := Xiaoyuzhou.processItems_first_no_stop nowMs
              (Int.fdiv nowMs 1000) st.db d st.firstEid st.skippedCount []
            rw [hP] at h2
            exact h2
          subst hst
          dsimp only
          rw [if_neg (by simp)]
          rw [if_neg hkey]
          obtain ⟨h1, h2, h3⟩ := ih f l (pageCount + 1)
            ⟨List.foldl Store.insertOrIgnore st.db ni,
              st.newCount + ni.length, sk2, fe2, st.fetches + 1⟩
            (by omega) (by omega)
            (by simp only [List.length_cons] at hlen; omega)
            (fun r hr => hclean r (by simp [hr]))
          dsimp only at h1
          exact ⟨h1.trans (by omega), h2, h3⟩

/-- C4.  Podcast-app first sync (`lastSyncTime = 0`): an id already in the
store is skipped — counted, never a stop signal — and the page loop keeps
going; and against a remote with at least `maxPages` well-formed cursored
pages, exactly `maxPages` pages are fetched, never more. -/
theorem C4_first_sync_cap :
    (∀ (nowMs : Int) (refreshOk : Bool) (maxPages : Nat)
      (prevEid : Option String) (resps : List Xiaoyuzhou.Resp)
      (db : List (Store.HRow String)),
      maxPages ≤ resps.length →
      (∀ resp ∈ resps, resp.ok = true ∧ resp.data ≠ none ∧
        resp.data ≠ some [] ∧ jsTruthyStr resp.loadMoreKey ≠ none) →
      (Xiaoyuzhou.sync nowMs refreshOk maxPages 0 prevEid resps db).st.fetches
        = maxPages ∧
      (Xiaoyuzhou.sync nowMs refreshOk maxPages 0 prevEid resps db).remaining
        = resps.drop maxPages ∧
      ∃ p, (Xiaoyuzhou.sync nowMs refreshOk maxPages 0 prevEid
        resps db).outcome = Except.ok p)
    ∧
    (∀ (nowMs ct : Int) (db : List (Store.HRow String))
      (raw : Xiaoyuzhou.Raw) (rs : List Xiaoyuzhou.Raw) (fe : Option String)
      (sk : Nat) (acc : List (Store.HRow String)) (e : String),
      jsTruthyStr raw.eid = some e →
      (Store.getById db e "xiaoyuzhou").isSome →
      Xiaoyuzhou.processItems nowMs ct true db (raw :: rs) fe sk acc
        = Xiaoyuzhou.processItems nowMs ct true db rs
            (if fe = none then some e else fe) (sk + 1) acc) := by
  constructor
  · intro nowMs refreshOk maxPages prevEid resps db hlen hclean
    have h0 : Xiaoyuzhou.sync nowMs refreshOk maxPages 0 prevEid resps db
        = Xiaoyuzhou.syncGo nowMs refreshOk true maxPages prevEid
          (resps.length + 1) resps 0 ⟨db, 0, 0, none, 0⟩ := by
      simp [Xiaoyuzhou.sync]
    rw [h0]
    obtain ⟨h1, h2, h3⟩ := Xiaoyuzhou.syncGo_first_cap nowMs refreshOk
      maxPages prevEid maxPages (resps.length + 1) resps 0 ⟨db, 0, 0, none, 0⟩
      (by omega) (by omega) hlen hclean
    dsimp only at h1
    exact ⟨h1.trans (by omega), h2, h3⟩
  · intro nowMs ct db raw rs fe sk acc e hid hg
    rw [Option.isSome_iff_exists] at hg
    obtain ⟨ex, hex⟩ := hg
    simp only [Xiaoyuzhou.processItems, hid, hex]
    rw [if_neg (by simp)]

/-- A fresh raw item for the C4 transport pages. -/
def c4Raw : Xiaoyuzhou.Raw :=
  ⟨some "n", some "pN", some 10, some "Episode N", some "Pod", some "Auth",
    none, none, 0⟩

/-- One well-formed cursored page of the C4 transport. -/
def c4Page : Xiaoyuzhou.Resp := ⟨true, 200, some [c4Raw], some "k"⟩

/-- A raw item whose id is already stored, for the C4 skip conjunct. -/
def c4RawDup : Xiaoyuzhou.Raw :=
  ⟨some "d", some "pD", some 20, some "Episode D", some "Pod", some "Auth",
    none, none, 0⟩

/-- The stored row matching `c4RawDup`. -/
def c4RowDup : Store.HRow String := Xiaoyuzhou.normalizeItem 0 0 c4RawDup

/-- Witness for C4: with `maxPages = 2` against a 3-page remote exactly 2
pages are fetched, and a first-sync duplicate is skipped (counter `+1`)
while processing continues. -/
theorem C4_first_sync_cap_witness :
    ((Xiaoyuzhou.sync 1700000000000 true 2 0 none [c4Page, c4Page, c4Page]
        []).st.fetches = 2 ∧
      (Xiaoyuzhou.sync 1700000000000 true 2 0 none [c4Page, c4Page, c4Page]
        []).remaining = [c4Page] ∧
      ∃ p, (Xiaoyuzhou.sync 1700000000000 true 2 0 none
        [c4Page, c4Page, c4Page] []).outcome = Except.ok p) ∧
    Xiaoyuzhou.processItems 0 0 true [c4RowDup] [c4RawDup] none 0 []
      = Xiaoyuzhou.processItems 0 0 true [c4RowDup] [] (some "d") 1 [] :=
  ⟨C4_first_sync_cap.1 1700000000000 true 2 none [c4Page, c4Page, c4Page] []
      (by decide) (by decide),
    C4_first_sync_cap.2 0 0 [c4RowDup] c4RawDup [] none 0 [] "d" (by decide)
      (by decide)⟩
